import Mathlib

/-!
Shallow embedding of the Franklin orchestration engine.

This file embeds the parts of the repository that the verified claims are
about: the capability-provider ("Tool") contract of `src/tools/base.py`, the
approval manager of `src/executor/approval.py`, the step/plan executor of
`src/executor/executor.py` (data model of `src/planner/planner.py`), and the
turn state machine of `src/graph/nodes.py` plus `src/graph/graph.py`.

Modelling conventions:
- `datetime` values are `Nat` tick counts measured in seconds; the current
  time (`datetime.utcnow()`) is threaded as an explicit `now` argument.
- `uuid4` identifiers are `Nat`; freshly generated ids are drawn from an
  explicit counter where the embedding needs them.
- `Decimal` amounts are `Rat`.
- Python `dict[str, Any]` parameter maps are association lists of strings.
- Fallible code and async calls are pure functions; a capability's `execute`
  returns a `ToolOutcome` that either carries a `ToolResult` or raises.
  An exception that the source does NOT catch is modelled by `Except.error`.
- Sub-second latencies (`execution_time_ms`) are not modelled and stay `0`.
-/

namespace Franklin

/-- Python lexicographic `<` on strings, character by character by code point
(shorter prefix is smaller). Used by the source when it compares the `.value`
strings of the `ApprovalLevel` str-enum with `>`. -/
def charsLt : List Char → List Char → Bool
  | [], [] => false
  | [], _ :: _ => true
  | _ :: _, [] => false
  | a :: as, b :: bs =>
    if a.toNat < b.toNat then true
    else if b.toNat < a.toNat then false
    else charsLt as bs

/-- Python `s1 > s2` on strings. -/
def pyStrGt (s1 s2 : String) : Bool := charsLt s2.data s1.data

/-- Python rendering of an `Optional[str]` inside an f-string: `None` prints
as the literal string "None". -/
def pyShowOpt (o : Option String) : String :=
  match o with
  | some s => s
  | Option.none => "None"

/-- Python `s.lower()` (character-wise, executable in the kernel). -/
def pyLower (s : String) : String := ⟨s.data.map Char.toLower⟩

/-- Python `s.strip()`: drop leading and trailing whitespace. -/
def pyStrip (s : String) : String :=
  ⟨((s.data.dropWhile (fun c => c.isWhitespace)).reverse.dropWhile
      (fun c => c.isWhitespace)).reverse⟩

/-- `s.isdigit()` for ASCII digit strings: nonempty and all characters digits. -/
def isDigitStr (s : String) : Bool := (s.length != 0) && s.data.all (fun c => c.isDigit)

/-- `int(s)` on a digit string. -/
def strToNat (s : String) : Nat := s.data.foldl (fun n c => n * 10 + (c.toNat - 48)) 0

/-- `s.startswith(pre)` (character-wise, executable in the kernel). -/
def strStarts (s pre : String) : Bool := go pre.data s.data
where
  go : List Char → List Char → Bool
    | [], _ => true
    | _ :: _, [] => false
    | a :: as, b :: bs => a == b && go as bs

/-- `s[n:]` (character-wise, executable in the kernel). -/
def strDrop (s : String) (n : Nat) : String := ⟨s.data.drop n⟩

/-- `ApprovalLevel` from `src/tools/base.py`: levels of approval required for
actions (`none` auto-approves, `notify` executes with notice, `confirm` and
`strict` require explicit approval). The Python class is a `str` enum. -/
inductive ApprovalLevel where
  | none
  | notify
  | confirm
  | strict
deriving DecidableEq

/-- The underlying string of the `ApprovalLevel` str-enum member. -/
def ApprovalLevel.value : ApprovalLevel → String
  | .none => "none"
  | .notify => "notify"
  | .confirm => "confirm"
  | .strict => "strict"

/-- Declaration-order position of an `ApprovalLevel` member, as computed by
`list(ApprovalLevel).index(x)` in `Tool.get_approval_level`. -/
def ApprovalLevel.index : ApprovalLevel → Nat
  | .none => 0
  | .notify => 1
  | .confirm => 2
  | .strict => 3

/-- Parameter maps (Python `dict[str, Any]`), with payload values abstracted
to strings. -/
abbrev Params := List (String × String)

/-- `d[k] = v` on a parameter dict: replace the value at an existing key or
append a new binding. -/
def Params.set (ps : Params) (k v : String) : Params :=
  if ps.any (fun kv => kv.1 == k) then
    ps.map (fun kv => if kv.1 == k then (k, v) else kv)
  else ps ++ [(k, v)]

/-- `d.update(other)` on parameter dicts: bindings of `other` override. -/
def Params.update (ps other : Params) : Params :=
  other.foldl (fun acc kv => acc.set kv.1 kv.2) ps

/-- A selectable option attached to tool results and approvals (a Python
`dict` carrying a `label` and a `params` sub-dict). -/
structure OptItem where
  label : String := ""
  params : Params := []
deriving DecidableEq

/-- `ToolResult` from `src/tools/base.py`: the structured result of a tool
execution. -/
structure ToolResult where
  success : Bool
  data : Option String := Option.none
  error : Option String := Option.none
  metadata : Params := []
  summary : Option String := Option.none
  options : Option (List OptItem) := Option.none
deriving DecidableEq

/-- `ToolResult.__post_init__`: fills in a default human-readable summary. -/
def ToolResult.post (r : ToolResult) : ToolResult :=
  match r.summary with
  | some _ => r
  | Option.none =>
    if r.success then { r with summary := some "Action completed successfully" }
    else { r with summary := some (r.error.getD "Action failed") }

/-- `ToolAction` from `src/tools/base.py`: one action a tool can perform,
with its declared approval level and optional cost estimate. -/
structure ToolAction where
  name : String
  description : String := ""
  parameters : Params := []
  approval_level : ApprovalLevel := ApprovalLevel.none
  cost_estimate : Option Rat := Option.none
deriving DecidableEq

/-- Outcome of `await tool.execute(...)`: a returned `ToolResult` or a raised
exception carrying its message. -/
inductive ToolOutcome where
  | result (r : ToolResult)
  | raise (msg : String)

/-- A capability provider (`Tool` in `src/tools/base.py`): name, approval
configuration, registered actions, and the behavior of its `execute` method
as a function of action, parameters and user. -/
structure ToolSpec where
  name : String
  default_approval_level : ApprovalLevel := ApprovalLevel.none
  cost_threshold_auto : Rat := 0
  cost_threshold_notify : Rat := 50
  actions : List ToolAction := []
  behavior : String → Params → Nat → ToolOutcome

/-- `Tool.get_action`: look up a registered action by name. -/
def ToolSpec.get_action (t : ToolSpec) (name : String) : Option ToolAction :=
  t.actions.find? (fun a => a.name == name)

/-- `Tool.get_approval_level(action, estimated_cost=None)`: the action's
declared level (or the tool default), then — when `estimated_cost` is truthy
(Python: not `None` and not zero) — a cost check: above
`cost_threshold_notify` return `confirm` outright; above
`cost_threshold_auto` return `max(base_level, NOTIFY)` by declaration-order
index (Python `max` keeps the first argument on ties). -/
def ToolSpec.get_approval_level (t : ToolSpec) (action : String)
    (estimated_cost : Option Rat) : ApprovalLevel :=
  let base_level :=
    match t.get_action action with
    | some a => a.approval_level
    | Option.none => t.default_approval_level
  match estimated_cost with
  | some c =>
    if c ≠ 0 then
      if c > t.cost_threshold_notify then ApprovalLevel.confirm
      else if c > t.cost_threshold_auto then
        (if ApprovalLevel.notify.index > base_level.index then ApprovalLevel.notify
         else base_level)
      else base_level
    else base_level
  | Option.none => base_level

/-- `ApprovalStatus` from `src/executor/approval.py`. -/
inductive ApprovalStatus where
  | pending
  | approved
  | rejected
  | expired
  | cancelled
deriving DecidableEq

/-- `PendingApproval` from `src/executor/approval.py`: one approval request. -/
structure PendingApproval where
  id : Nat
  user_id : Nat := 0
  tool : String := ""
  action : String := ""
  parameters : Params := []
  description : String := ""
  estimated_cost : Option Rat := Option.none
  options : Option (List OptItem) := Option.none
  selected_option : Option Nat := Option.none
  status : ApprovalStatus := ApprovalStatus.pending
  created_at : Nat := 0
  expires_at : Nat := 0
  resolved_at : Option Nat := Option.none
  rejection_reason : Option String := Option.none
  plan_id : Option Nat := Option.none
  step_id : Option Nat := Option.none
  channel : String := ""
deriving DecidableEq

/-- `PendingApproval.is_expired`: strictly past `expires_at` and still
`pending`. -/
def PendingApproval.is_expired (now : Nat) (a : PendingApproval) : Bool :=
  decide (a.expires_at < now) && decide (a.status = ApprovalStatus.pending)

/-- `PendingApproval._time_until_expiry`: countdown text. Python truncates the
divisions toward zero with `int(...)`. -/
def PendingApproval.time_until_expiry (now : Nat) (a : PendingApproval) : String :=
  let delta : Int := (a.expires_at : Int) - (now : Int)
  let hours : Int := Int.tdiv delta 3600
  if hours > 24 then toString (Int.tdiv hours 24) ++ " days"
  else if hours > 0 then toString hours ++ " hours"
  else toString (Int.tdiv delta 60) ++ " minutes"

/-- Rendering of a `Decimal` cost; the two-decimal f-string formatting of the
source is abstracted to `toString` (no claim observes the digits). -/
def fmtCost (c : Rat) : String := toString c

/-- `PendingApproval.to_message`: the user-facing approval prompt. Where the
source falls back to `str(opt)` for an option without a label, this model
uses the (then empty) `label` field. -/
def PendingApproval.to_message (now : Nat) (a : PendingApproval) : String :=
  let msg := "**Action Approval Required**\n\n" ++ a.description ++ "\n\n"
  let msg :=
    match a.estimated_cost with
    | some c =>
      if c ≠ 0 then msg ++ "💰 Estimated cost: $" ++ fmtCost c ++ "\n\n" else msg
    | Option.none => msg
  let msg :=
    match a.options with
    | some opts =>
      if opts.length ≠ 0 then
        let lines := String.join (opts.enum.map
          (fun p => toString (p.1 + 1) ++ ". " ++ p.2.label ++ "\n"))
        msg ++ "**Options:**\n" ++ lines ++
          "\nReply with option number, \x27approve\x27, or \x27cancel\x27\n"
      else msg ++ "Reply \x27approve\x27 to proceed or \x27cancel\x27 to abort.\n"
    | Option.none => msg ++ "Reply \x27approve\x27 to proceed or \x27cancel\x27 to abort.\n"
  msg ++ "\n_Expires in " ++ a.time_until_expiry now ++ "_"

/-- `ApprovalManager` state: the `_pending` dict (insertion-ordered, keyed by
the `id` of each stored item) and the `_user_pending` dict from user id to
the list of approval ids created for that user. `next_id` models `uuid4`
freshness for newly created approvals. -/
structure ApprovalManager where
  pending : List PendingApproval := []
  user_pending : List (Nat × List Nat) := []
  next_id : Nat := 0
deriving DecidableEq

/-- `self._user_pending.get(user_id, [])`. -/
def ApprovalManager.userIds (st : ApprovalManager) (u : Nat) : List Nat :=
  match st.user_pending.find? (fun p => p.1 == u) with
  | some p => p.2
  | Option.none => []

/-- Store a user's approval-id list (insert or replace). -/
def ApprovalManager.setUserIds (st : ApprovalManager) (u : Nat) (ids : List Nat) :
    List (Nat × List Nat) :=
  if st.user_pending.any (fun p => p.1 == u) then
    st.user_pending.map (fun p => if p.1 == u then (u, ids) else p)
  else st.user_pending ++ [(u, ids)]

/-- In-place mutation of the stored approval with id `a.id` (Python mutates
the object held in the `_pending` dict). -/
def ApprovalManager.update (st : ApprovalManager) (a : PendingApproval) : ApprovalManager :=
  { st with pending := st.pending.map (fun b => if b.id == a.id then a else b) }

/-- `ApprovalManager.create_approval`: build the item (expiry
`now + expires_in_hours` hours), store it and append its id to the user's
list. -/
def ApprovalManager.create_approval (now : Nat) (st : ApprovalManager) (user_id : Nat)
    (tool action description : String) (parameters : Params)
    (estimated_cost : Option Rat) (options : Option (List OptItem))
    (plan_id step_id : Option Nat) (channel : String) (expires_in_hours : Nat) :
    PendingApproval × ApprovalManager :=
  let a : PendingApproval :=
    { id := st.next_id, user_id := user_id, tool := tool, action := action,
      parameters := parameters, description := description,
      estimated_cost := estimated_cost, options := options,
      created_at := now, expires_at := now + expires_in_hours * 3600,
      plan_id := plan_id, step_id := step_id, channel := channel }
  (a, { st with
        pending := st.pending ++ [a],
        user_pending := st.setUserIds user_id (st.userIds user_id ++ [a.id]),
        next_id := st.next_id + 1 })

/-- `ApprovalManager.get_pending`: fetch by id, lazily flipping an expired
item's status to `expired` (a mutation of the stored object). -/
def ApprovalManager.get_pending (now : Nat) (st : ApprovalManager) (approval_id : Nat) :
    Option PendingApproval × ApprovalManager :=
  match st.pending.find? (fun a => a.id == approval_id) with
  | Option.none => (Option.none, st)
  | some a =>
    if a.is_expired now then
      let a2 := { a with status := ApprovalStatus.expired }
      (some a2, st.update a2)
    else (some a, st)

/-- The loop of `ApprovalManager.get_user_pending`: fetch each id via
`get_pending` (threading its lazy-expiry mutations) and keep the items still
`pending`. -/
def ApprovalManager.collect_pending (now : Nat) :
    List Nat → ApprovalManager → List PendingApproval × ApprovalManager
  | [], st => ([], st)
  | aid :: rest, st =>
    let r1 := st.get_pending now aid
    let r2 := ApprovalManager.collect_pending now rest r1.2
    match r1.1 with
    | some a =>
      if a.status = ApprovalStatus.pending then (a :: r2.1, r2.2) else r2
    | Option.none => r2

/-- `ApprovalManager.get_user_pending`: the user's still-pending approvals in
creation order. -/
def ApprovalManager.get_user_pending (now : Nat) (st : ApprovalManager) (user_id : Nat) :
    List PendingApproval × ApprovalManager :=
  ApprovalManager.collect_pending now (st.userIds user_id) st

/-- `ApprovalManager.approve`: no-op returning the item unchanged when it is
already resolved (which includes just-flipped expired items); otherwise mark
approved and record the selected option. -/
def ApprovalManager.approve (now : Nat) (st : ApprovalManager) (approval_id : Nat)
    (selected_option : Option Nat) : Option PendingApproval × ApprovalManager :=
  let r := st.get_pending now approval_id
  match r.1 with
  | Option.none => (Option.none, r.2)
  | some a =>
    if a.status ≠ ApprovalStatus.pending then (some a, r.2)
    else
      let a2 := { a with
                  status := ApprovalStatus.approved,
                  selected_option := selected_option, resolved_at := some now }
      (some a2, r.2.update a2)

/-- `ApprovalManager.reject`: mirror of `approve` with a rejection reason. -/
def ApprovalManager.reject (now : Nat) (st : ApprovalManager) (approval_id : Nat)
    (reason : Option String) : Option PendingApproval × ApprovalManager :=
  let r := st.get_pending now approval_id
  match r.1 with
  | Option.none => (Option.none, r.2)
  | some a =>
    if a.status ≠ ApprovalStatus.pending then (some a, r.2)
    else
      let a2 := { a with
                  status := ApprovalStatus.rejected,
                  rejection_reason := reason, resolved_at := some now }
      (some a2, r.2.update a2)

/-- The canonical affirmative tokens of `resolve_from_message` (the same
tuple is inlined again in `parse_intent_node` of `src/graph/nodes.py`). -/
def affirmative_tokens : List String := ["approve", "yes", "ok", "confirm", "y", "proceed"]

/-- The canonical negative tokens of `resolve_from_message` (the same tuple
is inlined again in `parse_intent_node` of `src/graph/nodes.py`). -/
def negative_tokens : List String := ["cancel", "no", "reject", "n", "stop", "abort"]

/-- Python truthiness of an `Optional[list]`: `None` and `[]` are falsy. -/
def optionsTruthy (o : Option (List OptItem)) : Bool :=
  match o with
  | some l => l.length != 0
  | Option.none => false

/-- `ApprovalManager.resolve_from_message`: normalize the text
(`strip().lower()`), take the user's most recent pending item, and resolve it
from affirmative/negative tokens or a bare option number; otherwise answer
with a help message. -/
def ApprovalManager.resolve_from_message (now : Nat) (st : ApprovalManager) (user_id : Nat)
    (message : String) : (Option PendingApproval × String) × ApprovalManager :=
  let m := pyLower (pyStrip message)
  let r := st.get_user_pending now user_id
  if h : r.1 = [] then ((Option.none, "No pending approvals"), r.2)
  else
    let approval := r.1.getLast h
    if affirmative_tokens.contains m then
      let r2 := r.2.approve now approval.id Option.none
      ((r2.1, "Approved"), r2.2)
    else if negative_tokens.contains m then
      let r2 := r.2.reject now approval.id (some "User cancelled")
      ((r2.1, "Cancelled"), r2.2)
    else if isDigitStr m && optionsTruthy approval.options then
      let option_num := strToNat m
      if 1 ≤ option_num ∧ option_num ≤ (approval.options.getD []).length then
        let r2 := r.2.approve now approval.id (some (option_num - 1))
        ((r2.1, "Selected option " ++ toString option_num), r2.2)
      else
        ((Option.none, "Invalid option. Please choose 1-" ++
          toString (approval.options.getD []).length), r.2)
    else ((Option.none, "Reply \x27approve\x27 or \x27cancel\x27"), r.2)

/-- `ApprovalManager.cleanup_expired`: flip every expired item to `expired`
and evict it from the store (deleting by collected id); returns the count. -/
def ApprovalManager.cleanup_expired (now : Nat) (st : ApprovalManager) :
    Nat × ApprovalManager :=
  let expiredIds := (st.pending.filter (fun a => a.is_expired now)).map (fun a => a.id)
  let flipped := st.pending.map
    (fun a => if a.is_expired now then { a with status := ApprovalStatus.expired } else a)
  (expiredIds.length,
   { st with pending := flipped.filter (fun a => !(expiredIds.contains a.id)) })

/-- `StepStatus` from `src/planner/planner.py`. -/
inductive StepStatus where
  | pending
  | in_progress
  | awaiting_approval
  | completed
  | failed
  | skipped
deriving DecidableEq

/-- Execution payloads (`Any` in the source): a single tool payload or the
list of per-step payloads that `execute_plan` collects. -/
inductive ExecData where
  | none
  | tool (d : Option String)
  | list (ds : List ExecData)

mutual

def ExecData.deq : (a b : ExecData) → Decidable (a = b)
  | .none, .none => isTrue rfl
  | .none, .tool _ => isFalse (fun h => ExecData.noConfusion h)
  | .none, .list _ => isFalse (fun h => ExecData.noConfusion h)
  | .tool _, .none => isFalse (fun h => ExecData.noConfusion h)
  | .tool a, .tool b =>
    match decEq a b with
    | isTrue h => isTrue (by rw [h])
    | isFalse h => isFalse (fun hh => h (by cases hh; rfl))
  | .tool _, .list _ => isFalse (fun h => ExecData.noConfusion h)
  | .list _, .none => isFalse (fun h => ExecData.noConfusion h)
  | .list _, .tool _ => isFalse (fun h => ExecData.noConfusion h)
  | .list as, .list bs =>
    match ExecData.deqList as bs with
    | isTrue h => isTrue (by rw [h])
    | isFalse h => isFalse (fun hh => h (by cases hh; rfl))

def ExecData.deqList : (as bs : List ExecData) → Decidable (as = bs)
  | [], [] => isTrue rfl
  | [], _ :: _ => isFalse (fun h => List.noConfusion h)
  | _ :: _, [] => isFalse (fun h => List.noConfusion h)
  | a :: as, b :: bs =>
    match ExecData.deq a b with
    | isFalse h => isFalse (fun hh => h (by cases hh; rfl))
    | isTrue h =>
      match ExecData.deqList as bs with
      | isTrue h2 => isTrue (by rw [h, h2])
      | isFalse h2 => isFalse (fun hh => h2 (by cases hh; rfl))

end

instance : DecidableEq ExecData := ExecData.deq

/-- `Step` from `src/planner/planner.py`: one step of an execution plan. -/
structure Step where
  id : Nat
  order : Nat := 0
  tool : String := ""
  action : String := ""
  parameters : Params := []
  description : String := ""
  depends_on : List Nat := []
  status : StepStatus := StepStatus.pending
  result : Option ExecData := Option.none
  error : Option String := Option.none
  approval_level : ApprovalLevel := ApprovalLevel.none
  started_at : Option Nat := Option.none
  completed_at : Option Nat := Option.none
deriving DecidableEq

/-- `Plan` from `src/planner/planner.py` (the `intent` and `created_at`
fields play no role in execution and are omitted). -/
structure Plan where
  id : Nat
  steps : List Step := []
  description : String := ""
  status : StepStatus := StepStatus.pending
  user_message : String := ""
deriving DecidableEq

/-- `AuditEntry` from `src/executor/executor.py`: append-only record of an
attempted invocation. -/
structure AuditEntry where
  user_id : Nat
  tool : String := ""
  action : String := ""
  parameters : Params := []
  result : String := ""
  error : Option String := Option.none
  approval_id : Option Nat := Option.none
  plan_id : Option Nat := Option.none
  step_id : Option Nat := Option.none
  executed_at : Nat := 0
  execution_time_ms : Nat := 0
deriving DecidableEq

/-- `ExecutionResult` from `src/executor/executor.py`. The `step_results`
list (never read by any verified claim, and ill-typed in the source — see
`run_steps`) is kept out of the record and threaded as a separate
accumulator inside `run_steps` instead. -/
structure ExecutionResult where
  success : Bool := false
  data : ExecData := ExecData.none
  error : Option String := Option.none
  summary : String := ""
  requires_approval : Bool := false
  approval : Option PendingApproval := Option.none
  executed_at : Nat := 0
  response_message : String := ""
  options_for_user : Option (List OptItem) := Option.none
deriving DecidableEq

/-- `Executor` state: the tool registry, the approval manager and the
in-memory audit log. -/
structure Executor where
  tools : List ToolSpec
  approval_manager : ApprovalManager := {}
  audit_log : List AuditEntry := []

/-- `ToolRegistry.get`. -/
def Executor.get_tool (ex : Executor) (name : String) : Option ToolSpec :=
  ex.tools.find? (fun t => t.name == name)

/-- `Executor._audit`: append one entry to the log. -/
def Executor.audit (ex : Executor) (e : AuditEntry) : Executor :=
  { ex with audit_log := ex.audit_log ++ [e] }

/-- The approval-level resolution of `execute_step` (executor.py lines
147-161): the tool's declared level for the step's action — `Tool.
get_approval_level` called with NO estimated cost — overridden by the
step's own level when the step's `.value` string compares greater, exactly
as the source's `step.approval_level.value > approval_level.value` compares
the str-enum values. -/
def effective_level (t : ToolSpec) (step : Step) : ApprovalLevel :=
  let lvl0 := t.get_approval_level step.action Option.none
  if pyStrGt step.approval_level.value lvl0.value then step.approval_level else lvl0

/-- `Executor._compile_summary`: join the non-empty summaries. -/
def compile_summary (results : List ExecutionResult) : String :=
  let summaries := (results.map (fun r => r.summary)).filter (fun s => s ≠ "")
  if summaries.isEmpty then "Actions completed" else String.intercalate " → " summaries

/-- `Executor.execute_step`: mark the step in-progress, look up the tool,
resolve the approval level (the tool's level for the action — called with no
estimated cost — overridden by the step's own level when the step's
`.value` STRING compares greater, exactly as the source's
`step.approval_level.value > approval_level.value`), gate on
`confirm`/`strict` by creating a `PendingApproval`, otherwise invoke the
capability and write exactly one audit entry for the attempt. The `NOTIFY`
branch's mutation of `result.metadata` is unobservable in the returned
`ExecutionResult` and is not modelled. Returns (result, mutated step,
mutated executor). -/
def Executor.execute_step (now : Nat) (ex : Executor) (step : Step) (user_id : Nat)
    (plan_id : Option Nat) (channel : String) : ExecutionResult × Step × Executor :=
  let step1 : Step := { step with status := StepStatus.in_progress, started_at := some now }
  match ex.get_tool step1.tool with
  | Option.none =>
    ({ success := false, error := some ("Tool not found: " ++ step1.tool),
       executed_at := now }, step1, ex)
  | some tool =>
    let approval_level := effective_level tool step1
    if approval_level = ApprovalLevel.confirm ∨ approval_level = ApprovalLevel.strict then
      let c := ex.approval_manager.create_approval now user_id step1.tool step1.action
        step1.description step1.parameters Option.none Option.none plan_id (some step1.id)
        channel 24
      ({ success := true, requires_approval := true, approval := some c.1,
         summary := "Approval required: " ++ step1.description, executed_at := now },
       step1, { ex with approval_manager := c.2 })
    else
      match tool.behavior step1.action step1.parameters user_id with
      | ToolOutcome.result r =>
        let ex2 := ex.audit
          { user_id := user_id, tool := step1.tool, action := step1.action,
            parameters := step1.parameters,
            result := if r.success then "success" else "failure",
            error := r.error, plan_id := plan_id, step_id := some step1.id,
            executed_at := now }
        ({ success := r.success, data := ExecData.tool r.data, error := r.error,
           summary := r.summary.getD "", response_message := r.summary.getD "",
           options_for_user := r.options, executed_at := now }, step1, ex2)
      | ToolOutcome.raise msg =>
        let ex2 := ex.audit
          { user_id := user_id, tool := step1.tool, action := step1.action,
            parameters := step1.parameters, result := "error", error := some msg,
            plan_id := plan_id, step_id := some step1.id, executed_at := now }
        ({ success := false, error := some msg,
           summary := "Error executing " ++ step1.action ++ ": " ++ msg,
           executed_at := now }, step1, ex2)

/-- The `for step in plan.steps` loop of `Executor.execute_plan`, returning
(result, updated steps, final plan status, executor). Already-processed
(non-`pending`) steps are skipped untouched. A step requiring approval is
marked `awaiting_approval` and the loop stops (plan status stays
`in_progress`); a failed step is marked `failed` and the loop stops with the
plan `failed`; otherwise the step is marked `completed` and the loop
continues. When the loop runs to the end, the source evaluates
`step_results[-1].options` — but `ExecutionResult` has no attribute
`options` (only `options_for_user`), so with at least one collected result
this raises an uncaught `AttributeError`, modelled as `Except.error`. -/
def Executor.run_steps (now user_id plan_id : Nat) (channel : String) :
    Executor → List Step → List ExecutionResult →
    Except String (ExecutionResult × List Step × StepStatus × Executor)
  | ex, [], acc =>
    match acc with
    | _ :: _ => Except.error "AttributeError: ExecutionResult object has no attribute options"
    | [] =>
      let final_summary := compile_summary acc
      Except.ok
        ({ success := true, data := ExecData.list (acc.map (fun r => r.data)),
           summary := final_summary, response_message := final_summary,
           options_for_user := Option.none, executed_at := now },
         [], StepStatus.completed, ex)
  | ex, step :: rest, acc =>
    if step.status ≠ StepStatus.pending then
      match Executor.run_steps now user_id plan_id channel ex rest acc with
      | Except.ok (res, steps2, stt, ex2) => Except.ok (res, step :: steps2, stt, ex2)
      | Except.error e => Except.error e
    else
      let r := ex.execute_step now step user_id (some plan_id) channel
      let result := r.1
      let step1 := r.2.1
      let ex1 := r.2.2
      if result.requires_approval then
        Except.ok
          ({ success := true, summary := "Awaiting approval for: " ++ step1.description,
             requires_approval := true, approval := result.approval,
             response_message :=
               (match result.approval with
                | some ap => ap.to_message now
                | Option.none => ""),
             executed_at := now },
           { step1 with status := StepStatus.awaiting_approval } :: rest,
           StepStatus.in_progress, ex1)
      else if result.success = false then
        Except.ok
          ({ success := false, error := result.error,
             summary := "Failed at step: " ++ step1.description,
             response_message := "Sorry, I encountered an error: " ++ pyShowOpt result.error,
             executed_at := now },
           { step1 with status := StepStatus.failed, error := result.error } :: rest,
           StepStatus.failed, ex1)
      else
        let step2 := { step1 with
                       status := StepStatus.completed, result := some result.data,
                       completed_at := some now }
        match Executor.run_steps now user_id plan_id channel ex1 rest (acc ++ [result]) with
        | Except.ok (res, steps2, stt, ex2) => Except.ok (res, step2 :: steps2, stt, ex2)
        | Except.error e => Except.error e

/-- `Executor.execute_plan`: empty plans succeed immediately; otherwise the
plan is marked `in_progress` and the steps run in order via `run_steps`. -/
def Executor.execute_plan (now : Nat) (ex : Executor) (plan : Plan) (user_id : Nat)
    (channel : String) : Except String (ExecutionResult × Plan × Executor) :=
  if plan.steps.isEmpty then
    Except.ok
      ({ success := true, summary := "No actions to execute", response_message := "",
         executed_at := now }, plan, ex)
  else
    match Executor.run_steps now user_id plan.id channel ex plan.steps [] with
    | Except.ok (res, steps2, stt, ex2) =>
      Except.ok (res, { plan with steps := steps2, status := stt }, ex2)
    | Except.error e => Except.error e

/-- `Executor.resume_after_approval`: proceed only for an `approved`
approval; locate the targeted step, merge the selected option's params into
the step's parameters (an out-of-range `selected_option` raises an uncaught
`IndexError` in the source, modelled as `Except.error`), invoke the
capability inside try/except. On a returned result the step is marked
`completed` BEFORE `result.success` is inspected and exactly one audit entry
is written; success continues via `execute_plan`, failure returns the error.
A raised capability exception is caught and converted to a failed result —
with no step mutation and NO audit entry. -/
def Executor.resume_after_approval (now : Nat) (ex : Executor) (approval : PendingApproval)
    (plan : Plan) (user_id : Nat) (channel : String) :
    Except String (ExecutionResult × Plan × Executor) :=
  if approval.status ≠ ApprovalStatus.approved then
    Except.ok
      ({ success := false, error := some "Action was not approved",
         response_message := "Action cancelled.", executed_at := now }, plan, ex)
  else
    match plan.steps.find? (fun s => some s.id == approval.step_id) with
    | Option.none =>
      Except.ok
        ({ success := false, error := some "Could not find pending step",
           executed_at := now }, plan, ex)
    | some step =>
      match ex.get_tool step.tool with
      | Option.none =>
        Except.ok
          ({ success := false, error := some ("Tool not found: " ++ step.tool),
             executed_at := now }, plan, ex)
      | some tool =>
        let merged : Except String Step :=
          match approval.selected_option, approval.options with
          | some idx, some opts =>
            if opts.length ≠ 0 then
              match opts.get? idx with
              | some sel => Except.ok { step with parameters := step.parameters.update sel.params }
              | Option.none => Except.error "IndexError: list index out of range"
            else Except.ok step
          | _, _ => Except.ok step
        match merged with
        | Except.error e => Except.error e
        | Except.ok step1 =>
          let plan1 := { plan with
                         steps := plan.steps.map (fun s => if s.id == step.id then step1 else s) }
          match tool.behavior step1.action step1.parameters user_id with
          | ToolOutcome.raise msg =>
            Except.ok
              ({ success := false, error := some msg,
                 response_message := "Error: " ++ msg, executed_at := now }, plan1, ex)
          | ToolOutcome.result r =>
            let step2 := { step1 with
                           status := StepStatus.completed,
                           result := some (ExecData.tool r.data), completed_at := some now }
            let plan2 := { plan1 with
                           steps := plan1.steps.map (fun s => if s.id == step.id then step2 else s) }
            let ex1 := ex.audit
              { user_id := user_id, tool := step2.tool, action := step2.action,
                parameters := step2.parameters,
                result := if r.success then "success" else "failure", error := r.error,
                approval_id := some approval.id, plan_id := some plan.id,
                step_id := some step2.id, executed_at := now }
            if r.success then
              ex1.execute_plan now plan2 user_id channel
            else
              Except.ok
                ({ success := false, error := r.error,
                   response_message := "Action failed: " ++ pyShowOpt r.error,
                   executed_at := now }, plan2, ex1)

/-- A requested tool call from the language model (`tc` dicts in
`agent_node`). -/
structure ToolCall where
  id : String := ""
  name : String := ""
  args : Params := []
deriving DecidableEq

/-- The `pending_approval` dict stored in the graph state. -/
structure PendingInfo where
  tool : String := ""
  args : Params := []
  description : String := ""
deriving DecidableEq

/-- The parsed intent dict produced by the classifier prompt (or its
malformed-output fallback). -/
structure IntentJson where
  needs_action : Bool := false
  category : String := "conversation"
  confidence : Rat := 1/2
deriving DecidableEq

/-- An LLM chat response as `agent_node` consumes it: requested tool calls
plus text content. -/
structure AgentResponse where
  tool_calls : List ToolCall := []
  content : String := ""
deriving DecidableEq

/-- The slice of LangGraph's `AgentState` that the modelled nodes read and
write, plus an `invocations` instrumentation counter incremented on every
`execute_tool` call (the only places a capability is invoked during a turn:
`execute_tools_node` and `execute_approved_node`). -/
structure GState where
  message : Option String := Option.none
  user_id : Nat := 0
  approval_status : String := "none"
  approval_response : Option String := Option.none
  pending_approval : Option PendingInfo := Option.none
  tool_calls : List ToolCall := []
  tool_results : List (String × Bool) := []
  intent : Option IntentJson := Option.none
  proactive_count : Nat := 0
  next_action : String := ""
  should_respond : Bool := false
  final_response : Option String := Option.none
  invocations : Nat := 0
deriving DecidableEq

/-- The external collaborators of a turn (language model calls and concrete
tool execution), supplied as oracles so the state machine can be analysed
for every possible collaborator behavior. -/
structure LlmOracle where
  classify : String → IntentJson
  agent : GState → AgentResponse
  tool_success : String → Params → Bool
  tool_summary : String → Params → String
  tool_error : String → Params → String
  reply : GState → String
  proactive : GState → Nat

/-- `APPROVAL_REQUIRED_TOOLS` from `src/graph/tools.py`. -/
def approval_required_tools : List String :=
  ["book_flight", "create_calendar_event", "update_calendar_event",
   "delete_calendar_event", "send_email", "reply_email", "schedule_payment",
   "submit_tax_return"]

/-- `parse_intent_node` from `src/graph/nodes.py`: with a pending approval,
an affirmative token routes to `execute_approved`, a negative token routes
to `respond` with the fixed cancellation text and marks the approval
rejected, and a bare digit routes to `execute_approved` with an
`option_<k>` response; in every other case (the source's fall-through out of
the `if state.get("approval_status") == PENDING` block) the classifier runs
and actionable high-confidence intents route to `agent`, everything else to
`respond`. The token tuples are the source's inlined literals, shared here
with `resolve_from_message`. -/
def parse_intent_node (o : LlmOracle) (st : GState) : GState :=
  match st.message with
  | Option.none => { st with next_action := "respond", should_respond := true }
  | some message =>
    let ml := pyStrip (pyLower message)
    if st.approval_status = "pending" ∧ affirmative_tokens.contains ml then
      { st with
        approval_status := "approved", approval_response := some "approved",
        next_action := "execute_approved" }
    else if st.approval_status = "pending" ∧ negative_tokens.contains ml then
      { st with
        approval_status := "rejected", approval_response := some "rejected",
        next_action := "respond",
        final_response := some "Understood, I\x27ve cancelled that action.",
        should_respond := true }
    else if st.approval_status = "pending" ∧ isDigitStr ml then
      { st with
        approval_status := "approved", approval_response := some ("option_" ++ ml),
        next_action := "execute_approved" }
    else
      let intent := o.classify message
      if intent.needs_action ∧ intent.confidence > 1/2 then
        { st with intent := some intent, next_action := "agent" }
      else
        { st with intent := some intent, next_action := "respond", should_respond := true }

/-- `agent_node`: ask the model; with no requested calls, respond with its
content; otherwise route the first approval-required call to
`request_approval`, or all calls to `execute_tools`. -/
def agent_node (o : LlmOracle) (st : GState) : GState :=
  let response := o.agent st
  if response.tool_calls.isEmpty then
    { st with
      next_action := "respond", should_respond := true,
      final_response := some response.content }
  else
    let tcs := response.tool_calls
    if tcs.any (fun tc => approval_required_tools.contains tc.name) then
      match tcs.find? (fun tc => approval_required_tools.contains tc.name) with
      | some tc =>
        { st with
          tool_calls := tcs, next_action := "request_approval",
          pending_approval := some
            { tool := tc.name, args := tc.args, description := "Execute " ++ tc.name } }
      | Option.none => st
    else { st with tool_calls := tcs, next_action := "execute_tools" }

/-- `execute_tools_node`: run every pending call (one capability invocation
each), clear the call list and return to `agent`. -/
def execute_tools_node (o : LlmOracle) (st : GState) : GState :=
  if st.tool_calls.isEmpty then { st with next_action := "agent" }
  else
    let results := st.tool_calls.map
      (fun tc => (tc.name, o.tool_success tc.name (tc.args.set "_user_id" (toString st.user_id))))
    { st with
      tool_results := results, tool_calls := [],
      invocations := st.invocations + st.tool_calls.length, next_action := "agent" }

/-- The formatted approval prompt of `request_approval_node` (keys starting
with `_` are skipped). -/
def approval_prompt (p : PendingInfo) : String :=
  let msg := "**Approval Required**\n\nI\x27d like to execute: **" ++ p.tool ++ "**\n\n"
  let msg :=
    if p.args.isEmpty then msg
    else msg ++ "Details:\n" ++ String.join (p.args.map
      (fun kv => if strStarts kv.1 "_" then "" else "- " ++ kv.1 ++ ": " ++ kv.2 ++ "\n"))
  msg ++ "\nReply **\x27approve\x27** to proceed or **\x27cancel\x27** to abort."

/-- `request_approval_node`: mark the approval pending and emit the prompt
as the turn's response. -/
def request_approval_node (st : GState) : GState :=
  match st.pending_approval with
  | Option.none => { st with next_action := "agent" }
  | some p =>
    { st with
      approval_status := "pending", next_action := "respond", should_respond := true,
      final_response := some (approval_prompt p) }

/-- `execute_approved_node`: execute the stored approved call (one
capability invocation), clear the approval state and respond with the
outcome. -/
def execute_approved_node (o : LlmOracle) (st : GState) : GState :=
  match st.pending_approval with
  | Option.none => { st with next_action := "respond", final_response := some "Nothing to execute." }
  | some p =>
    let args := p.args.set "_user_id" (toString st.user_id)
    let args :=
      match st.approval_response with
      | some resp =>
        if strStarts resp "option_" then args.set "selected_option" (strDrop resp 7) else args
      | Option.none => args
    let ok := o.tool_success p.tool args
    let response :=
      if ok then "Done! " ++ o.tool_summary p.tool args
      else "Sorry, that didn\x27t work: " ++ o.tool_error p.tool args
    { st with
      tool_results := [(p.tool, ok)], approval_status := "none",
      pending_approval := Option.none, next_action := "respond",
      should_respond := true, final_response := some response,
      invocations := st.invocations + 1 }

/-- `respond_node`: keep an already prepared `final_response`, otherwise ask
the model for a conversational reply. -/
def respond_node (o : LlmOracle) (st : GState) : GState :=
  match st.final_response with
  | some _ => st
  | Option.none => { st with final_response := some (o.reply st) }

/-- `check_proactive_node`: best-effort notification check (at most two
notifications; failures swallowed — absorbed into the oracle). -/
def check_proactive_node (o : LlmOracle) (st : GState) : GState :=
  { st with proactive_count := min (o.proactive st) 2 }

/-- The graph's nodes (`create_franklin_graph` in `src/graph/graph.py`). -/
inductive Node where
  | parse_intent
  | agent
  | execute_tools
  | request_approval
  | execute_approved
  | respond
  | check_proactive
deriving DecidableEq

/-- Apply one node's function. -/
def step_node (o : LlmOracle) (n : Node) (st : GState) : GState :=
  match n with
  | .parse_intent => parse_intent_node o st
  | .agent => agent_node o st
  | .execute_tools => execute_tools_node o st
  | .request_approval => request_approval_node st
  | .execute_approved => execute_approved_node o st
  | .respond => respond_node o st
  | .check_proactive => check_proactive_node o st

/-- The graph's edges: conditional edges out of `parse_intent` (via
`route_after_intent`) and `agent` (via `route_after_agent`), fixed edges
elsewhere, `END` after `check_proactive`. -/
def next_node (n : Node) (st : GState) : Option Node :=
  match n with
  | .parse_intent =>
    if st.next_action = "agent" then some Node.agent
    else if st.next_action = "execute_approved" then some Node.execute_approved
    else some Node.respond
  | .agent =>
    if st.next_action = "execute_tools" then some Node.execute_tools
    else if st.next_action = "request_approval" then some Node.request_approval
    else some Node.respond
  | .execute_tools => some Node.agent
  | .request_approval => some Node.respond
  | .execute_approved => some Node.respond
  | .respond => some Node.check_proactive
  | .check_proactive => Option.none

/-- Fuel-bounded run of one turn of the graph from a given node, returning
the list of nodes executed and the final state (the source's
`agent ⇄ execute_tools` loop has no iteration cap, hence the fuel). -/
def run_turn (o : LlmOracle) : Nat → Node → GState → List Node × GState
  | 0, _, st => ([], st)
  | Nat.succ fuel, n, st =>
    let st1 := step_node o n st
    match next_node n st1 with
    | Option.none => ([n], st1)
    | some n2 =>
      let r := run_turn o fuel n2 st1
      (n :: r.1, r.2)

/-- Whether `execute_step` gates the step behind an approval: tool found and
effective level `confirm` or `strict`. -/
def requires_confirmation (tools : List ToolSpec) (step : Step) : Bool :=
  match tools.find? (fun t => t.name == step.tool) with
  | some t =>
    decide (effective_level t step = ApprovalLevel.confirm ∨
            effective_level t step = ApprovalLevel.strict)
  | Option.none => false

/-- Static classification of what `execute_step` does to a step: the tool is
missing, the step is gated behind approval, the capability is invoked and
returns `r`, or the capability raises. Depends only on the registry. -/
inductive StepOutcome where
  | tool_missing
  | needs_approval (lvl : ApprovalLevel)
  | invoked (r : ToolResult)
  | raised (msg : String)

def classify_step (tools : List ToolSpec) (user_id : Nat) (step : Step) : StepOutcome :=
  match tools.find? (fun t => t.name == step.tool) with
  | Option.none => StepOutcome.tool_missing
  | some t =>
    let lvl := effective_level t step
    if lvl = ApprovalLevel.confirm ∨ lvl = ApprovalLevel.strict then
      StepOutcome.needs_approval lvl
    else
      match t.behavior step.action step.parameters user_id with
      | ToolOutcome.result r => StepOutcome.invoked r
      | ToolOutcome.raise m => StepOutcome.raised m

/-- The step's invocation runs and reports success. -/
def step_ok (tools : List ToolSpec) (user_id : Nat) (step : Step) : Bool :=
  match classify_step tools user_id step with
  | StepOutcome.invoked r => r.success
  | _ => false

/-- The error that `execute_step` reports when the step's invocation runs
and does not succeed (a tool-reported failure carries the tool's `error`
field; a caught exception carries its message); `none` when the step does
not fail this way. -/
def step_fail_error (tools : List ToolSpec) (user_id : Nat) (step : Step) :
    Option (Option String) :=
  match classify_step tools user_id step with
  | StepOutcome.invoked r => if r.success then Option.none else some r.error
  | StepOutcome.raised m => some (some m)
  | _ => Option.none

/-- The step as `execute_plan` leaves a successfully completed step. -/
def completed_step (tools : List ToolSpec) (user_id now : Nat) (t : Step) : Step :=
  match classify_step tools user_id t with
  | StepOutcome.invoked r =>
    { t with
      status := StepStatus.completed, started_at := some now,
      result := some (ExecData.tool r.data), completed_at := some now }
  | _ => t

/-- The step as `execute_plan` leaves the first failing step. -/
def failed_step (tools : List ToolSpec) (user_id now : Nat) (t : Step) : Step :=
  match step_fail_error tools user_id t with
  | some e => { t with status := StepStatus.failed, started_at := some now, error := e }
  | Option.none => t

/-- Replace every declared cost estimate of a tool's actions. -/
def ToolSpec.with_costs (t : ToolSpec) (f : ToolAction → Option Rat) : ToolSpec :=
  { t with actions := t.actions.map (fun a => { a with cost_estimate := f a }) }

/-! ## Concrete fixtures used by the claim evaluations and witnesses -/

/-- A provider for the C6 witness: action `list` succeeds, anything else
reports a failure. -/
def w6_tool : ToolSpec :=
  { name := "finance",
    actions := [{ name := "list_accounts" }],
    behavior := fun a _ _ =>
      if a == "list_accounts" then
        ToolOutcome.result { success := true, data := some "accounts", summary := some "ok" }
      else ToolOutcome.result { success := false, error := some "unknown action" } }

def w6_ex : Executor := { tools := [w6_tool] }

def w6_s1 : Step := { id := 1, tool := "finance", action := "list_accounts" }

def w6_s2 : Step := { id := 2, tool := "finance", action := "transfer", description := "move money" }

def w6_s3 : Step := { id := 3, tool := "finance", action := "list_accounts" }

/-- A provider declaring tier `confirm` for its `send_payment` action. -/
def c1_tool : ToolSpec :=
  { name := "payments",
    actions := [{ name := "send_payment", approval_level := ApprovalLevel.confirm }],
    behavior := fun _ _ _ =>
      ToolOutcome.result { success := true, data := some "sent", summary := some "done" } }

/-- A step for that action whose own declared tier is `none`. -/
def c1_step : Step := { id := 1, tool := "payments", action := "send_payment" }

def c1_ex : Executor := { tools := [c1_tool] }

/-- A provider whose capability raises on invocation. -/
def c2_tool : ToolSpec :=
  { name := "payments", actions := [{ name := "send_payment" }],
    behavior := fun _ _ _ => ToolOutcome.raise "boom" }

def c2_step : Step :=
  { id := 5, tool := "payments", action := "send_payment",
    status := StepStatus.awaiting_approval }

def c2_plan : Plan := { id := 2, steps := [c2_step] }

def c2_approval : PendingApproval :=
  { id := 11, user_id := 3, tool := "payments", action := "send_payment",
    status := ApprovalStatus.approved, step_id := some 5 }

def c2_ex : Executor := { tools := [c2_tool] }

/-- A provider whose capability reports failure (`success=false`). -/
def c3_tool : ToolSpec :=
  { name := "payments", actions := [{ name := "send_payment" }],
    behavior := fun _ _ _ =>
      ToolOutcome.result { success := false, error := some "declined" } }

def c3_ex : Executor := { tools := [c3_tool] }

/-- A provider declaring tier `strict` for its `submit_tax_return` action,
with the default cost thresholds (auto 0, notify 50). -/
def c5_tool : ToolSpec :=
  { name := "tax",
    actions := [{ name := "submit_tax_return", approval_level := ApprovalLevel.strict }],
    behavior := fun _ _ _ => ToolOutcome.result { success := true } }

/-- A provider whose `book_flight` action has default tier `none` but a
declared cost estimate of 100, above the confirm threshold of 50. -/
def c4_tool : ToolSpec :=
  { name := "travel",
    actions := [{ name := "book_flight", cost_estimate := some 100 }],
    behavior := fun _ _ _ => ToolOutcome.result { success := true } }

def c4_step : Step := { id := 1, tool := "travel", action := "book_flight" }

def c4_ex : Executor := { tools := [c4_tool] }

/-- C7 fixture: one pending approval, expired at read time 10. -/
def c7_a : PendingApproval := { id := 1, user_id := 2, expires_at := 5 }

def c7_st : ApprovalManager := { pending := [c7_a], user_pending := [(2, [1])], next_id := 2 }

/-- C8 fixture: one unexpired pending approval with two options. -/
def c8_a : PendingApproval :=
  { id := 1, user_id := 4, expires_at := 100,
    options := some [{ label := "option A" }, { label := "option B" }] }

def c8_st : ApprovalManager := { pending := [c8_a], user_pending := [(4, [1])], next_id := 2 }

/-- C9 fixture: a trivial oracle (its behavior is irrelevant on the proved
path) and a turn state carrying "cancel" with an outstanding approval. -/
def c9_oracle : LlmOracle :=
  { classify := fun _ => {}, agent := fun _ => {}, tool_success := fun _ _ => true,
    tool_summary := fun _ _ => "", tool_error := fun _ _ => "", reply := fun _ => "",
    proactive := fun _ => 0 }

def c9_state : GState :=
  { message := some "cancel", approval_status := "pending", invocations := 5 }

/-- C10 fixture: one pending approval, expired at operation time 9. -/
def c10_a : PendingApproval := { id := 6, user_id := 3, expires_at := 7 }

def c10_st : ApprovalManager := { pending := [c10_a], user_pending := [(3, [6])], next_id := 7 }

/-! ## Helper lemmas about the executor -/

theorem effective_level_mark (t : ToolSpec) (s : Step) (stt : StepStatus) (n : Option Nat) :
    effective_level t { s with status := stt, started_at := n } = effective_level t s := rfl

theorem audit_tools (ex : Executor) (e : AuditEntry) : (ex.audit e).tools = ex.tools := rfl

/-- What `execute_step` does when the capability is invoked and returns a
result: the result's payload is passed through, the step is left
`in_progress`, and exactly one audit entry (outcome success/failure) is
appended. -/
theorem execute_step_of_invoked (now : Nat) (ex : Executor) (step : Step) (u : Nat)
    (pid : Option Nat) (ch : String) (r : ToolResult)
    (h : classify_step ex.tools u step = StepOutcome.invoked r) :
    ex.execute_step now step u pid ch =
      ({ success := r.success, data := ExecData.tool r.data, error := r.error,
         summary := r.summary.getD "", response_message := r.summary.getD "",
         options_for_user := r.options, executed_at := now },
       { step with status := StepStatus.in_progress, started_at := some now },
       ex.audit
         { user_id := u, tool := step.tool, action := step.action,
           parameters := step.parameters,
           result := if r.success then "success" else "failure",
           error := r.error, plan_id := pid, step_id := some step.id,
           executed_at := now }) := by
  unfold classify_step at h
  simp only [Executor.execute_step, Executor.get_tool]
  cases hf : ex.tools.find? (fun t => t.name == step.tool) with
  | none => rw [hf] at h; cases h
  | some t =>
    rw [hf] at h
    dsimp only at h ⊢
    rw [effective_level_mark]
    split at h
    · cases h
    · rename_i hcond
      rw [if_neg hcond]
      cases hb : t.behavior step.action step.parameters u with
      | result r2 => rw [hb] at h; cases h; rfl
      | raise m => rw [hb] at h; cases h

/-- What `execute_step` does when the capability raises: the exception is
caught, exactly one audit entry with outcome `error` is appended, and a
failed result carries the message. -/
theorem execute_step_of_raised (now : Nat) (ex : Executor) (step : Step) (u : Nat)
    (pid : Option Nat) (ch : String) (m : String)
    (h : classify_step ex.tools u step = StepOutcome.raised m) :
    ex.execute_step now step u pid ch =
      ({ success := false, error := some m,
         summary := "Error executing " ++ step.action ++ ": " ++ m, executed_at := now },
       { step with status := StepStatus.in_progress, started_at := some now },
       ex.audit
         { user_id := u, tool := step.tool, action := step.action,
           parameters := step.parameters, result := "error", error := some m,
           plan_id := pid, step_id := some step.id, executed_at := now }) := by
  unfold classify_step at h
  simp only [Executor.execute_step, Executor.get_tool]
  cases hf : ex.tools.find? (fun t => t.name == step.tool) with
  | none => rw [hf] at h; cases h
  | some t =>
    rw [hf] at h
    dsimp only at h ⊢
    rw [effective_level_mark]
    split at h
    · cases h
    · rename_i hcond
      rw [if_neg hcond]
      cases hb : t.behavior step.action step.parameters u with
      | result r2 => rw [hb] at h; cases h
      | raise m2 => rw [hb] at h; cases h; rfl

/-- The step loop on `pre ++ s :: post`: when every pending step of `pre`
succeeds and `s` (pending) fails — tool-reported failure or caught
exception with error `e` — the loop stops at `s` with a failed result
carrying `e`, marks `s` failed, leaves `post` untouched and reports plan
status `failed`. -/
theorem run_steps_first_failure (now u pid : Nat) (ch : String) (s : Step) (e : Option String)
    (post : List Step) :
    ∀ (pre : List Step) (ex : Executor) (acc : List ExecutionResult),
      (∀ t ∈ pre, t.status = StepStatus.pending → step_ok ex.tools u t = true) →
      s.status = StepStatus.pending →
      step_fail_error ex.tools u s = some e →
      ∃ ex2 : Executor,
        Executor.run_steps now u pid ch ex (pre ++ s :: post) acc =
          Except.ok
            ({ success := false, error := e, summary := "Failed at step: " ++ s.description,
               response_message := "Sorry, I encountered an error: " ++ pyShowOpt e,
               executed_at := now },
             (pre.map (fun t =>
                if t.status = StepStatus.pending then completed_step ex.tools u now t else t))
               ++ failed_step ex.tools u now s :: post,
             StepStatus.failed, ex2) := by
  intro pre
  induction pre with
  | nil =>
    intro ex acc _ hs hfail
    simp only [List.nil_append, Executor.run_steps]
    rw [if_neg (by simp [hs])]
    unfold step_fail_error at hfail
    cases hc : classify_step ex.tools u s with
    | tool_missing => rw [hc] at hfail; cases hfail
    | needs_approval lvl => rw [hc] at hfail; cases hfail
    | raised m =>
      rw [hc] at hfail
      cases hfail
      rw [execute_step_of_raised now ex s u (some pid) ch m hc]
      dsimp only
      rw [if_neg (by simp), if_pos rfl]
      refine ⟨ex.audit
        { user_id := u, tool := s.tool, action := s.action, parameters := s.parameters,
          result := "error", error := some m, plan_id := some pid, step_id := some s.id,
          executed_at := now }, ?_⟩
      simp only [failed_step, step_fail_error, hc, List.map_nil, List.nil_append]
    | invoked r0 =>
      rw [hc] at hfail
      dsimp only at hfail
      cases hrs : r0.success with
      | true => rw [hrs] at hfail; simp at hfail
      | false =>
        rw [hrs] at hfail
        simp only [Bool.false_eq_true, if_false] at hfail
        cases hfail
        rw [execute_step_of_invoked now ex s u (some pid) ch r0 hc]
        dsimp only
        rw [if_neg (by simp), if_pos (by rw [hrs])]
        refine ⟨ex.audit
          { user_id := u, tool := s.tool, action := s.action, parameters := s.parameters,
            result := if r0.success then "success" else "failure", error := r0.error,
            plan_id := some pid, step_id := some s.id, executed_at := now }, ?_⟩
        simp only [failed_step, step_fail_error, hc, hrs, Bool.false_eq_true, if_false,
          List.map_nil, List.nil_append]
  | cons t pre ih =>
    intro ex acc hpre hs hfail
    simp only [List.cons_append, Executor.run_steps, List.append_eq]
    by_cases ht : t.status = StepStatus.pending
    · have hok := hpre t (List.mem_cons_self t pre) ht
      unfold step_ok at hok
      cases hc : classify_step ex.tools u t with
      | tool_missing => rw [hc] at hok; cases hok
      | needs_approval lvl => rw [hc] at hok; cases hok
      | raised m => rw [hc] at hok; cases hok
      | invoked r0 =>
        rw [hc] at hok
        dsimp only at hok
        obtain ⟨ex2, hrec⟩ := ih
          (ex.audit
            { user_id := u, tool := t.tool, action := t.action, parameters := t.parameters,
              result := if r0.success then "success" else "failure",
              error := r0.error, plan_id := some pid, step_id := some t.id,
              executed_at := now })
          (acc ++ [({ success := r0.success, data := ExecData.tool r0.data, error := r0.error,
                      summary := r0.summary.getD "", response_message := r0.summary.getD "",
                      options_for_user := r0.options, executed_at := now } : ExecutionResult)])
          (fun t2 ht2 => hpre t2 (List.mem_cons_of_mem _ ht2)) hs hfail
        refine ⟨ex2, ?_⟩
        rw [if_neg (by simp [ht])]
        rw [execute_step_of_invoked now ex t u (some pid) ch r0 hc]
        dsimp only
        rw [if_neg (by simp), if_neg (by simp [hok])]
        rw [hrec]
        simp only [List.map_cons, List.cons_append, if_pos ht, completed_step, hc, audit_tools]
    · obtain ⟨ex2, hrec⟩ := ih ex acc
        (fun t2 ht2 => hpre t2 (List.mem_cons_of_mem _ ht2)) hs hfail
      refine ⟨ex2, ?_⟩
      rw [if_pos ht]
      rw [hrec]
      simp only [List.map_cons, List.cons_append, if_neg ht]

/-! ## C6 -/

/-- C6: when `executePlan` encounters the first step whose execution fails
(tool-reported failure or caught exception, error `e`), it marks that step
`failed`, marks the plan `failed`, and returns — without raising — an
unsuccessful `ExecutionResult` carrying that step's error; every step after
the failing one is left exactly as it was (in particular, pending steps stay
`pending` and are never attempted). Earlier pending steps, all succeeding by
hypothesis, are marked `completed`. -/
theorem c6_execute_plan_first_failure (now u pid : Nat) (ex : Executor)
    (ch desc um : String) (pre post : List Step) (s : Step) (e : Option String)
    (hpre : ∀ t ∈ pre, t.status = StepStatus.pending → step_ok ex.tools u t = true)
    (hs : s.status = StepStatus.pending)
    (hfail : step_fail_error ex.tools u s = some e) :
    ∃ ex2 : Executor,
      ex.execute_plan now
        { id := pid, steps := pre ++ s :: post, description := desc, user_message := um }
        u ch =
      Except.ok
        ({ success := false, error := e, summary := "Failed at step: " ++ s.description,
           response_message := "Sorry, I encountered an error: " ++ pyShowOpt e,
           executed_at := now },
         { id := pid,
           steps := (pre.map (fun t =>
             if t.status = StepStatus.pending then completed_step ex.tools u now t else t))
             ++ failed_step ex.tools u now s :: post,
           description := desc, status := StepStatus.failed, user_message := um },
         ex2) := by
  obtain ⟨ex2, hrun⟩ := run_steps_first_failure now u pid ch s e post pre ex [] hpre hs hfail
  refine ⟨ex2, ?_⟩
  simp only [Executor.execute_plan]
  rw [if_neg (by cases pre <;> simp)]
  rw [hrun]


/-- Witness for C6 at a concrete three-step plan whose middle step fails. -/
theorem c6_execute_plan_first_failure_witness :
    ((∀ t ∈ [w6_s1], t.status = StepStatus.pending → step_ok w6_ex.tools 7 t = true) ∧
     w6_s2.status = StepStatus.pending ∧
     step_fail_error w6_ex.tools 7 w6_s2 = some (some "unknown action")) ∧
    (∃ ex2 : Executor,
      w6_ex.execute_plan 0
        { id := 9, steps := [w6_s1] ++ w6_s2 :: [w6_s3], description := "", user_message := "" }
        7 "" =
      Except.ok
        ({ success := false, error := some "unknown action",
           summary := "Failed at step: " ++ w6_s2.description,
           response_message := "Sorry, I encountered an error: " ++ pyShowOpt (some "unknown action"),
           executed_at := 0 },
         { id := 9,
           steps := ([w6_s1].map (fun t =>
             if t.status = StepStatus.pending then completed_step w6_ex.tools 7 0 t else t))
             ++ failed_step w6_ex.tools 7 0 w6_s2 :: [w6_s3],
           description := "", status := StepStatus.failed, user_message := "" },
         ex2)) :=
  ⟨⟨by decide, rfl, by decide⟩,
   c6_execute_plan_first_failure 0 7 9 w6_ex "" "" "" [w6_s1] [w6_s3] w6_s2
     (some "unknown action") (by decide) rfl (by decide)⟩

/-! ## C1 -/


/-- C1 (evaluation at the failing input): the higher of the step's declared
tier (`none`) and the provider's declared tier for the action (`confirm`)
is `confirm`, so the claim requires a `PendingApproval` and
`requiresApproval=true` with no capability invocation. The code instead
compares the str-enum `.value` strings with `>` ("none" > "confirm"
lexicographically), resolves the tier to `none`, invokes the capability
(one audit entry) and creates no `PendingApproval`. -/
theorem c1_confirm_tier_executes_without_approval :
    ApprovalLevel.none.index < ApprovalLevel.confirm.index ∧
    effective_level c1_tool c1_step = ApprovalLevel.none ∧
    (c1_ex.execute_step 0 c1_step 9 Option.none "").1.requires_approval = false ∧
    (c1_ex.execute_step 0 c1_step 9 Option.none "").2.2.approval_manager.pending = [] ∧
    (c1_ex.execute_step 0 c1_step 9 Option.none "").2.2.audit_log.length = 1 := by
  refine ⟨by decide, by decide, ?_, ?_, ?_⟩ <;> rfl

/-! ## C2 -/


/-- C2 (evaluation at the failing input): resuming after approval with a
capability that raises is caught and converted to a failed result, but NO
audit entry is written for the attempted invocation (the audit log stays
empty), where the claim requires exactly one entry with outcome `error`. -/
theorem c2_resume_exception_writes_no_audit :
    c2_ex.audit_log = [] ∧
    (c2_ex.resume_after_approval 0 c2_approval c2_plan 3 "web").toOption.map
      (fun r => (r.1.success, r.1.error, r.2.2.audit_log.length)) =
      some (false, some "boom", 0) :=
  ⟨rfl, rfl⟩

/-! ## C3 -/


/-- C3 (evaluation at the failing input): on the resume-after-approval path
a tool-reported failure still leaves the step's status `completed` — the
source sets `step.status = COMPLETED` before inspecting `result.success` —
while the claim requires status `failed`, never `completed`. The returned
result is unsuccessful and the attempt is audited as `failure`. -/
theorem c3_resume_failure_marks_step_completed :
    (c3_ex.resume_after_approval 0 c2_approval c2_plan 3 "web").toOption.map
      (fun r => (r.1.success, r.2.1.steps.map (fun s => s.status),
                 r.2.2.audit_log.map (fun a => a.result))) =
      some (false, [StepStatus.completed], ["failure"]) :=
  rfl

/-! ## C5 -/


/-- C5 (evaluation at the failing input): with no cost the action resolves
to its default `strict`, but an estimated cost above the confirm threshold
makes `get_approval_level` return `confirm` outright — a tier strictly
LOWER than the declared `strict` in the order none < notify < confirm <
strict — where the claim requires the result to never drop below the
default. -/
theorem c5_cost_downgrades_strict_to_confirm :
    c5_tool.get_approval_level "submit_tax_return" Option.none = ApprovalLevel.strict ∧
    c5_tool.get_approval_level "submit_tax_return" (some 100) = ApprovalLevel.confirm ∧
    ApprovalLevel.confirm.index < ApprovalLevel.strict.index := by
  refine ⟨rfl, by decide, by decide⟩

/-! ## C4 -/


/-- C4 counterexample: cost-aware resolution of this action would give
`confirm` (first conjunct: `getApprovalLevel` with the declared estimate of
100 > threshold 50 escalates), yet `executeStep` — which never passes a
cost — executes the capability immediately: `requiresApproval=false`, no
`PendingApproval` created, one audit entry written. -/
theorem c4_cost_estimate_not_consulted_counterexample :
    c4_tool.get_approval_level "book_flight" (some 100) = ApprovalLevel.confirm ∧
    (c4_ex.execute_step 0 c4_step 3 Option.none "").1.requires_approval = false ∧
    (c4_ex.execute_step 0 c4_step 3 Option.none "").2.2.approval_manager.pending = [] ∧
    (c4_ex.execute_step 0 c4_step 3 Option.none "").2.2.audit_log.length = 1 := by
  refine ⟨by decide, ?_, ?_, ?_⟩ <;> rfl

theorem find_map_costs (l : List ToolAction) (f : ToolAction → Option Rat) (a : String) :
    (l.map (fun x => { x with cost_estimate := f x })).find? (fun x => x.name == a) =
    (l.find? (fun x => x.name == a)).map (fun x => { x with cost_estimate := f x }) := by
  induction l with
  | nil => rfl
  | cons x l ih =>
    simp only [List.map_cons, List.find?]
    have hn : ((({ x with cost_estimate := f x } : ToolAction).name) == a) = (x.name == a) := rfl
    rw [hn]
    cases hx : (x.name == a) with
    | true => rfl
    | false => exact ih

theorem get_approval_level_none_with_costs (t : ToolSpec) (f : ToolAction → Option Rat)
    (a : String) :
    (t.with_costs f).get_approval_level a Option.none = t.get_approval_level a Option.none := by
  simp only [ToolSpec.get_approval_level, ToolSpec.get_action, ToolSpec.with_costs]
  rw [find_map_costs]
  cases t.actions.find? (fun x => x.name == a) <;> rfl

theorem effective_level_with_costs (t : ToolSpec) (f : ToolAction → Option Rat) (s : Step) :
    effective_level (t.with_costs f) s = effective_level t s := by
  simp only [effective_level, get_approval_level_none_with_costs]

theorem tools_find_with_costs (tools : List ToolSpec) (f : ToolAction → Option Rat)
    (nm : String) :
    (tools.map (fun t => t.with_costs f)).find? (fun t => t.name == nm) =
    (tools.find? (fun t => t.name == nm)).map (fun t => t.with_costs f) := by
  induction tools with
  | nil => rfl
  | cons t l ih =>
    simp only [List.map_cons, List.find?]
    have hn : ((t.with_costs f).name == nm) = (t.name == nm) := rfl
    rw [hn]
    cases ht : (t.name == nm) with
    | true => rfl
    | false => exact ih

/-- `classify_step` — and with it everything `execute_step` does — is
unchanged when the declared cost estimates of every action are replaced
arbitrarily. -/
theorem classify_with_costs (tools : List ToolSpec) (f : ToolAction → Option Rat)
    (u : Nat) (step : Step) :
    classify_step (tools.map (fun t => t.with_costs f)) u step =
    classify_step tools u step := by
  unfold classify_step
  rw [tools_find_with_costs]
  cases hf : tools.find? (fun t => t.name == step.tool) with
  | none => rfl
  | some t =>
    simp only [Option.map_some']
    rw [effective_level_with_costs]
    rfl

theorem execute_step_of_missing (now : Nat) (ex : Executor) (step : Step) (u : Nat)
    (pid : Option Nat) (ch : String)
    (h : classify_step ex.tools u step = StepOutcome.tool_missing) :
    ex.execute_step now step u pid ch =
      ({ success := false, error := some ("Tool not found: " ++ step.tool),
         executed_at := now },
       { step with status := StepStatus.in_progress, started_at := some now }, ex) := by
  unfold classify_step at h
  simp only [Executor.execute_step, Executor.get_tool]
  cases hf : ex.tools.find? (fun t => t.name == step.tool) with
  | none => rfl
  | some t =>
    rw [hf] at h
    dsimp only at h
    split at h
    · cases h
    · cases hb : t.behavior step.action step.parameters u <;> rw [hb] at h <;> cases h

/-- What `execute_step` does when the resolved level requires confirmation:
a `PendingApproval` is created, `requiresApproval=true` is returned, the
capability is NOT invoked and the audit log is untouched. -/
theorem execute_step_of_needs_approval (now : Nat) (ex : Executor) (step : Step) (u : Nat)
    (pid : Option Nat) (ch : String) (lvl : ApprovalLevel)
    (h : classify_step ex.tools u step = StepOutcome.needs_approval lvl) :
    ex.execute_step now step u pid ch =
      ({ success := true, requires_approval := true,
         approval := some (ex.approval_manager.create_approval now u step.tool step.action
           step.description step.parameters Option.none Option.none pid (some step.id) ch 24).1,
         summary := "Approval required: " ++ step.description, executed_at := now },
       { step with status := StepStatus.in_progress, started_at := some now },
       { ex with approval_manager := (ex.approval_manager.create_approval now u step.tool
           step.action step.description step.parameters Option.none Option.none pid
           (some step.id) ch 24).2 }) := by
  unfold classify_step at h
  simp only [Executor.execute_step, Executor.get_tool]
  cases hf : ex.tools.find? (fun t => t.name == step.tool) with
  | none => rw [hf] at h; cases h
  | some t =>
    rw [hf] at h
    dsimp only at h ⊢
    rw [effective_level_mark]
    split at h
    · rename_i hcond
      rw [if_pos hcond]
    · rename_i hcond
      rw [if_neg hcond]
      cases hb : t.behavior step.action step.parameters u <;> rw [hb] at h <;> cases h

/-- The observable output of `execute_step` (result, mutated step, approval
manager, audit log) is invariant under replacing every action's declared
cost estimate. -/
theorem execute_step_cost_invariant (now u : Nat) (ex : Executor) (step : Step)
    (pid : Option Nat) (ch : String) (f : ToolAction → Option Rat) :
    (((Executor.mk (ex.tools.map (fun t => t.with_costs f)) ex.approval_manager
        ex.audit_log).execute_step now step u pid ch).1,
     ((Executor.mk (ex.tools.map (fun t => t.with_costs f)) ex.approval_manager
        ex.audit_log).execute_step now step u pid ch).2.1,
     ((Executor.mk (ex.tools.map (fun t => t.with_costs f)) ex.approval_manager
        ex.audit_log).execute_step now step u pid ch).2.2.approval_manager,
     ((Executor.mk (ex.tools.map (fun t => t.with_costs f)) ex.approval_manager
        ex.audit_log).execute_step now step u pid ch).2.2.audit_log) =
    ((ex.execute_step now step u pid ch).1,
     (ex.execute_step now step u pid ch).2.1,
     (ex.execute_step now step u pid ch).2.2.approval_manager,
     (ex.execute_step now step u pid ch).2.2.audit_log) := by
  have hcls : classify_step (Executor.mk (ex.tools.map (fun t => t.with_costs f))
      ex.approval_manager ex.audit_log).tools u step = classify_step ex.tools u step :=
    classify_with_costs ex.tools f u step
  cases hc : classify_step ex.tools u step with
  | tool_missing =>
    rw [execute_step_of_missing now _ step u pid ch (hcls.trans hc),
        execute_step_of_missing now ex step u pid ch hc]
  | needs_approval lvl =>
    rw [execute_step_of_needs_approval now _ step u pid ch lvl (hcls.trans hc),
        execute_step_of_needs_approval now ex step u pid ch lvl hc]
  | invoked r =>
    rw [execute_step_of_invoked now _ step u pid ch r (hcls.trans hc),
        execute_step_of_invoked now ex step u pid ch r hc]
    rfl
  | raised m =>
    rw [execute_step_of_raised now _ step u pid ch m (hcls.trans hc),
        execute_step_of_raised now ex step u pid ch m hc]
    rfl

/-- Whether `execute_step` gates a step is exactly `requires_confirmation`:
the tier resolved from the provider's declared level for the action (no
cost passed) and the step's declared level. -/
theorem execute_step_requires_iff (now : Nat) (ex : Executor) (step : Step) (u : Nat)
    (pid : Option Nat) (ch : String) :
    (ex.execute_step now step u pid ch).1.requires_approval =
      requires_confirmation ex.tools step := by
  simp only [Executor.execute_step, Executor.get_tool, requires_confirmation]
  cases hf : ex.tools.find? (fun t => t.name == step.tool) with
  | none => rfl
  | some t =>
    dsimp only
    rw [effective_level_mark]
    by_cases hcond : effective_level t step = ApprovalLevel.confirm ∨
        effective_level t step = ApprovalLevel.strict
    · rw [if_pos hcond]
      simp [hcond]
    · rw [if_neg hcond]
      cases hb : t.behavior step.action step.parameters u <;> simp [hcond]

/-- C4 (amended): `executeStep` resolves the step's approval tier WITHOUT
cost escalation — it calls `getApprovalLevel` with no estimated cost — so
whether a `PendingApproval` is created depends only on the provider's
declared tier for the action and the step's declared tier
(`requires_confirmation`), and every observable output of `executeStep`
(result, step mutation, approval store, audit log) is unchanged when the
declared cost estimates of all actions are replaced arbitrarily. In
particular a declared cost estimate above the provider's confirm threshold
does not by itself cause a `PendingApproval`. -/
theorem c4_amended_execute_step_ignores_costs (now u : Nat) (ex : Executor) (step : Step)
    (pid : Option Nat) (ch : String) (f : ToolAction → Option Rat) :
    ((ex.execute_step now step u pid ch).1.requires_approval =
      requires_confirmation ex.tools step) ∧
    ((((Executor.mk (ex.tools.map (fun t => t.with_costs f)) ex.approval_manager
        ex.audit_log).execute_step now step u pid ch).1,
      ((Executor.mk (ex.tools.map (fun t => t.with_costs f)) ex.approval_manager
        ex.audit_log).execute_step now step u pid ch).2.1,
      ((Executor.mk (ex.tools.map (fun t => t.with_costs f)) ex.approval_manager
        ex.audit_log).execute_step now step u pid ch).2.2.approval_manager,
      ((Executor.mk (ex.tools.map (fun t => t.with_costs f)) ex.approval_manager
        ex.audit_log).execute_step now step u pid ch).2.2.audit_log) =
     ((ex.execute_step now step u pid ch).1,
      (ex.execute_step now step u pid ch).2.1,
      (ex.execute_step now step u pid ch).2.2.approval_manager,
      (ex.execute_step now step u pid ch).2.2.audit_log)) :=
  ⟨execute_step_requires_iff now ex step u pid ch,
   execute_step_cost_invariant now u ex step pid ch f⟩

/-! ## Helper lemmas about the approval manager -/

theorem find_update_other (l : List PendingApproval) (c : PendingApproval) (j : Nat)
    (hcj : c.id ≠ j) :
    (l.map (fun b => if b.id == c.id then c else b)).find? (fun b => b.id == j) =
    l.find? (fun b => b.id == j) := by
  induction l with
  | nil => rfl
  | cons x l ih =>
    simp only [List.map_cons, List.find?]
    by_cases hx : x.id = c.id
    · rw [if_pos (by simp [hx])]
      have h1 : (c.id == j) = false := by simp [hcj]
      have h2 : (x.id == j) = false := by simp [hx, hcj]
      rw [h1, h2]
      exact ih
    · rw [if_neg (by simp [hx])]
      cases hxj : (x.id == j) with
      | true => rfl
      | false => exact ih

theorem find_update_same (l : List PendingApproval) (a c : PendingApproval) (i : Nat)
    (hci : c.id = i) (h : l.find? (fun b => b.id == i) = some a) :
    (l.map (fun b => if b.id == c.id then c else b)).find? (fun b => b.id == i) = some c := by
  induction l with
  | nil => cases h
  | cons x l ih =>
    simp only [List.find?] at h
    simp only [List.map_cons, List.find?]
    cases hx : (x.id == i) with
    | true =>
      rw [hx] at h
      have hxi : x.id = i := by simpa using hx
      rw [if_pos (by simp [hxi, hci]), hci]
      simp
    | false =>
      rw [hx] at h
      have hxi : x.id ≠ i := by simpa using hx
      rw [if_neg (by simp [hci, hxi])]
      rw [hx]
      exact ih h

/-- `get_pending` that returns a still-`pending` item read it unflipped: the
store is unchanged, the item sits in the store at the queried id, and it is
not expired at `now`. -/
theorem get_pending_some_pending (now : Nat) (st : ApprovalManager) (i : Nat)
    (a : PendingApproval) (hg : (st.get_pending now i).1 = some a)
    (hp : a.status = ApprovalStatus.pending) :
    (st.get_pending now i).2 = st ∧
    st.pending.find? (fun b => b.id == i) = some a ∧
    a.is_expired now = false := by
  unfold ApprovalManager.get_pending at hg ⊢
  cases hf : st.pending.find? (fun b => b.id == i) with
  | none => rw [hf] at hg; cases hg
  | some a0 =>
    rw [hf] at hg
    dsimp only at hg ⊢
    cases hexp : a0.is_expired now with
    | true =>
      rw [if_pos hexp] at hg
      cases hg
      simp at hp
    | false =>
      rw [if_neg (by simp [hexp])] at hg
      cases hg
      rw [if_neg (by simp [hexp])]
      exact ⟨rfl, rfl, hexp⟩

theorem get_pending_find_other (now : Nat) (st : ApprovalManager) (i j : Nat) (hij : i ≠ j) :
    ((st.get_pending now i).2).pending.find? (fun b => b.id == j) =
    st.pending.find? (fun b => b.id == j) := by
  unfold ApprovalManager.get_pending
  cases hf : st.pending.find? (fun b => b.id == i) with
  | none => rfl
  | some a0 =>
    dsimp only
    have ha0 : a0.id = i := by
      have := List.find?_some hf
      simpa using this
    split
    · simp only [ApprovalManager.update]
      have := find_update_other st.pending { a0 with status := ApprovalStatus.expired } j
        (by intro h; apply hij; rw [← ha0]; simpa using h)
      simpa using this
    · rfl

/-- Every item collected by the `get_user_pending` loop is pending and
unexpired at read time. -/
theorem collect_pending_not_expired (now : Nat) :
    ∀ (ids : List Nat) (st : ApprovalManager) (b : PendingApproval),
      b ∈ (ApprovalManager.collect_pending now ids st).1 →
      b.status = ApprovalStatus.pending ∧ ¬(b.expires_at < now) := by
  intro ids
  induction ids with
  | nil => intro st b hb; simp [ApprovalManager.collect_pending] at hb
  | cons aid rest ih =>
    intro st b hb
    simp only [ApprovalManager.collect_pending] at hb
    cases hg : (st.get_pending now aid).1 with
    | none =>
      rw [hg] at hb
      dsimp only at hb
      exact ih _ b hb
    | some a =>
      rw [hg] at hb
      dsimp only at hb
      by_cases ha : a.status = ApprovalStatus.pending
      · rw [if_pos ha] at hb
        dsimp only at hb
        rcases List.mem_cons.mp hb with hba | hbt
        · subst hba
          obtain ⟨_, _, hnexp⟩ := get_pending_some_pending now st aid b hg ha
          refine ⟨ha, ?_⟩
          intro hlt
          rw [PendingApproval.is_expired] at hnexp
          simp [hlt, ha] at hnexp
        · exact ih _ b hbt
      · rw [if_neg ha] at hb
        exact ih _ b hb

theorem collect_pending_find_other (now : Nat) :
    ∀ (ids : List Nat) (st : ApprovalManager) (j : Nat), j ∉ ids →
      ((ApprovalManager.collect_pending now ids st).2).pending.find? (fun b => b.id == j) =
      st.pending.find? (fun b => b.id == j) := by
  intro ids
  induction ids with
  | nil => intro st j _; rfl
  | cons aid rest ih =>
    intro st j hj
    have hj1 : j ≠ aid := fun h => hj (by simp [h])
    have hj2 : j ∉ rest := fun h => hj (by simp [h])
    simp only [ApprovalManager.collect_pending]
    cases hg : (st.get_pending now aid).1 with
    | none =>
      dsimp only
      rw [ih _ j hj2, get_pending_find_other now st aid j (fun h => hj1 h.symm)]
    | some a =>
      dsimp only
      by_cases ha : a.status = ApprovalStatus.pending
      · rw [if_pos ha]
        dsimp only
        rw [ih _ j hj2, get_pending_find_other now st aid j (fun h => hj1 h.symm)]
      · rw [if_neg ha]
        rw [ih _ j hj2, get_pending_find_other now st aid j (fun h => hj1 h.symm)]

/-- Every item collected by the `get_user_pending` loop can still be found
unchanged, keyed by its own id, in the state the loop leaves behind —
provided the processed id list has no duplicates. -/
theorem collect_pending_find (now : Nat) :
    ∀ (ids : List Nat) (st : ApprovalManager), ids.Nodup →
      ∀ b ∈ (ApprovalManager.collect_pending now ids st).1,
        ((ApprovalManager.collect_pending now ids st).2).pending.find?
          (fun x => x.id == b.id) = some b := by
  intro ids
  induction ids with
  | nil => intro st _ b hb; simp [ApprovalManager.collect_pending] at hb
  | cons aid rest ih =>
    intro st hnd b hb
    have hnd1 : aid ∉ rest := (List.nodup_cons.mp hnd).1
    have hnd2 : rest.Nodup := (List.nodup_cons.mp hnd).2
    simp only [ApprovalManager.collect_pending] at hb ⊢
    cases hg : (st.get_pending now aid).1 with
    | none =>
      rw [hg] at hb
      dsimp only at hb ⊢
      exact ih _ hnd2 b hb
    | some a =>
      rw [hg] at hb
      dsimp only at hb ⊢
      by_cases ha : a.status = ApprovalStatus.pending
      · rw [if_pos ha] at hb ⊢
        dsimp only at hb ⊢
        rcases List.mem_cons.mp hb with hba | hbt
        · subst hba
          obtain ⟨hst, hfind, _⟩ := get_pending_some_pending now st aid b hg ha
          have hbid : b.id = aid := by
            have := List.find?_some hfind
            simpa using this
          rw [collect_pending_find_other now rest _ b.id (by rw [hbid]; exact hnd1)]
          rw [hst, hbid]
          exact hfind
        · exact ih _ hnd2 b hbt
      · rw [if_neg ha] at hb ⊢
        exact ih _ hnd2 b hb

/-- `approve` on a pending, unexpired item marks it approved with the given
selected option and stores the update. -/
theorem approve_of_pending (now : Nat) (st : ApprovalManager) (i : Nat)
    (a : PendingApproval) (sel : Option Nat)
    (hfind : st.pending.find? (fun b => b.id == i) = some a)
    (hp : a.status = ApprovalStatus.pending) (hne : a.is_expired now = false) :
    st.approve now i sel =
      (some { a with
              status := ApprovalStatus.approved, selected_option := sel,
              resolved_at := some now },
       st.update { a with
                   status := ApprovalStatus.approved, selected_option := sel,
                   resolved_at := some now }) := by
  unfold ApprovalManager.approve ApprovalManager.get_pending
  rw [hfind]
  dsimp only
  rw [if_neg (by simp [hne])]
  dsimp only
  rw [if_neg (by simp [hp])]

/-- `reject` on a pending, unexpired item marks it rejected with the given
reason and stores the update. -/
theorem reject_of_pending (now : Nat) (st : ApprovalManager) (i : Nat)
    (a : PendingApproval) (reason : Option String)
    (hfind : st.pending.find? (fun b => b.id == i) = some a)
    (hp : a.status = ApprovalStatus.pending) (hne : a.is_expired now = false) :
    st.reject now i reason =
      (some { a with
              status := ApprovalStatus.rejected, rejection_reason := reason,
              resolved_at := some now },
       st.update { a with
                   status := ApprovalStatus.rejected, rejection_reason := reason,
                   resolved_at := some now }) := by
  unfold ApprovalManager.reject ApprovalManager.get_pending
  rw [hfind]
  dsimp only
  rw [if_neg (by simp [hne])]
  dsimp only
  rw [if_neg (by simp [hp])]

/-- `approve` on a pending item past its expiry flips it to `expired` and
returns without approving; the stored status becomes `expired`. -/
theorem approve_of_expired (now : Nat) (st : ApprovalManager) (a : PendingApproval)
    (sel : Option Nat)
    (hfind : st.pending.find? (fun b => b.id == a.id) = some a)
    (hp : a.status = ApprovalStatus.pending) (he : a.expires_at < now) :
    (st.approve now a.id sel).1 = some { a with status := ApprovalStatus.expired } ∧
    ((st.approve now a.id sel).2).pending.find? (fun b => b.id == a.id) =
      some { a with status := ApprovalStatus.expired } := by
  have hexp : a.is_expired now = true := by
    rw [PendingApproval.is_expired]
    simp [he, hp]
  unfold ApprovalManager.approve ApprovalManager.get_pending
  rw [hfind]
  dsimp only
  rw [if_pos hexp]
  dsimp only
  rw [if_pos (by simp)]
  refine ⟨rfl, ?_⟩
  simp only [ApprovalManager.update]
  exact find_update_same st.pending a { a with status := ApprovalStatus.expired } a.id rfl hfind

/-- `reject` on a pending item past its expiry flips it to `expired` and
returns without rejecting; the stored status becomes `expired`. -/
theorem reject_of_expired (now : Nat) (st : ApprovalManager) (a : PendingApproval)
    (reason : Option String)
    (hfind : st.pending.find? (fun b => b.id == a.id) = some a)
    (hp : a.status = ApprovalStatus.pending) (he : a.expires_at < now) :
    (st.reject now a.id reason).1 = some { a with status := ApprovalStatus.expired } ∧
    ((st.reject now a.id reason).2).pending.find? (fun b => b.id == a.id) =
      some { a with status := ApprovalStatus.expired } := by
  have hexp : a.is_expired now = true := by
    rw [PendingApproval.is_expired]
    simp [he, hp]
  unfold ApprovalManager.reject ApprovalManager.get_pending
  rw [hfind]
  dsimp only
  rw [if_pos hexp]
  dsimp only
  rw [if_pos (by simp)]
  refine ⟨rfl, ?_⟩
  simp only [ApprovalManager.update]
  exact find_update_same st.pending a { a with status := ApprovalStatus.expired } a.id rfl hfind

/-- After `cleanup_expired`, an item that was expired at sweep time can no
longer be fetched: every entry bearing its id has been evicted. -/
theorem cleanup_expired_evicts (now : Nat) (st : ApprovalManager) (a : PendingApproval)
    (hmem : a ∈ st.pending) (hexp : a.is_expired now = true) :
    ∀ now2, (((ApprovalManager.cleanup_expired now st).2).get_pending now2 a.id).1 =
      Option.none := by
  intro now2
  unfold ApprovalManager.get_pending
  have hnone : ((ApprovalManager.cleanup_expired now st).2).pending.find?
      (fun b => b.id == a.id) = Option.none := by
    rw [List.find?_eq_none]
    intro x hx hpx
    simp only [ApprovalManager.cleanup_expired] at hx
    have hx2 := List.mem_filter.mp hx
    have hcont : ((st.pending.filter (fun b => b.is_expired now)).map
        (fun b => b.id)).contains x.id = true := by
      have hxid : x.id = a.id := by simpa using hpx
      rw [hxid]
      simp only [List.contains, List.elem_iff]
      exact List.mem_map_of_mem (fun b => b.id) (List.mem_filter.mpr ⟨hmem, hexp⟩)
    rw [hcont] at hx2
    simp at hx2
  rw [hnone]

theorem negative_not_affirmative (s : String) (h : negative_tokens.contains s = true) :
    affirmative_tokens.contains s = false := by
  have hs : s ∈ negative_tokens := by simpa [List.contains, List.elem_iff] using h
  fin_cases hs <;> decide

theorem digit_not_affirmative (s : String) (h : isDigitStr s = true) :
    affirmative_tokens.contains s = false := by
  cases hc : affirmative_tokens.contains s with
  | false => rfl
  | true =>
    have hs : s ∈ affirmative_tokens := by simpa [List.contains, List.elem_iff] using hc
    fin_cases hs <;> exact absurd h (by decide)

theorem digit_not_negative (s : String) (h : isDigitStr s = true) :
    negative_tokens.contains s = false := by
  cases hc : negative_tokens.contains s with
  | false => rfl
  | true =>
    have hs : s ∈ negative_tokens := by simpa [List.contains, List.elem_iff] using hc
    fin_cases hs <;> exact absurd h (by decide)

/-! ## C7 -/

/-- C7 counterexample: before the sweep, a fetch of the expired pending item
lazily reports it `expired`; but after `cleanupExpired` has processed it
(count 1), `getPending` returns nothing at all — not the item with status
`expired` as the claim states. -/
theorem c7_swept_read_returns_nothing :
    (ApprovalManager.get_pending 10 c7_st 1).1 =
      some { c7_a with status := ApprovalStatus.expired } ∧
    (ApprovalManager.cleanup_expired 10 c7_st).1 = 1 ∧
    (((ApprovalManager.cleanup_expired 10 c7_st).2).get_pending 10 1).1 = Option.none :=
  ⟨rfl, rfl, rfl⟩

/-- C7 (amended): a fetch of a pending item past its expiry reports it with
status `expired` without any sweep, for as long as the item is in the
store; `cleanupExpired` flips expired items and EVICTS them, after which
`getPending` returns none for that id (at any later read time) — it never
again reports the item, pending or otherwise. -/
theorem c7_amended_expired_read_until_sweep (now : Nat) (st : ApprovalManager)
    (a : PendingApproval)
    (hfind : st.pending.find? (fun b => b.id == a.id) = some a)
    (hp : a.status = ApprovalStatus.pending) (he : a.expires_at < now) :
    (st.get_pending now a.id).1 = some { a with status := ApprovalStatus.expired } ∧
    ∀ now2, (((ApprovalManager.cleanup_expired now st).2).get_pending now2 a.id).1 =
      Option.none := by
  have hexp : a.is_expired now = true := by
    rw [PendingApproval.is_expired]
    simp [he, hp]
  constructor
  · unfold ApprovalManager.get_pending
    rw [hfind]
    dsimp only
    rw [if_pos hexp]
  · exact cleanup_expired_evicts now st a (List.mem_of_find?_eq_some hfind) hexp

/-- Witness for C7 at the concrete store `c7_st` and read time 10. -/
theorem c7_amended_expired_read_until_sweep_witness :
    (c7_st.pending.find? (fun b => b.id == c7_a.id) = some c7_a ∧
     c7_a.status = ApprovalStatus.pending ∧ c7_a.expires_at < 10) ∧
    ((ApprovalManager.get_pending 10 c7_st c7_a.id).1 =
       some { c7_a with status := ApprovalStatus.expired } ∧
     ∀ now2, (((ApprovalManager.cleanup_expired 10 c7_st).2).get_pending now2 c7_a.id).1 =
       Option.none) :=
  ⟨⟨rfl, rfl, by decide⟩,
   c7_amended_expired_read_until_sweep 10 c7_st c7_a rfl rfl (by decide)⟩

/-! ## C10 -/

/-- C10: once an approval is past its expiry while still pending, no
`ApprovalManager` operation moves it to `approved` or `rejected`: `approve`
and `reject` flip it to `expired` and leave it `expired` in the store (they
never set `approved`/`rejected`), and `resolveFromMessage` can never select
it, because the user's pending set (`getUserPending`, which is what
`resolveFromMessage` targets) contains only unexpired items — so the
expired item is not among them. -/
theorem c10_expired_approval_never_authorizes (now u : Nat) (st : ApprovalManager)
    (a : PendingApproval)
    (hfind : st.pending.find? (fun b => b.id == a.id) = some a)
    (hp : a.status = ApprovalStatus.pending) (he : a.expires_at < now) :
    (∀ sel, (st.approve now a.id sel).1 = some { a with status := ApprovalStatus.expired } ∧
      ((st.approve now a.id sel).2).pending.find? (fun b => b.id == a.id) =
        some { a with status := ApprovalStatus.expired }) ∧
    (∀ reason,
      (st.reject now a.id reason).1 = some { a with status := ApprovalStatus.expired } ∧
      ((st.reject now a.id reason).2).pending.find? (fun b => b.id == a.id) =
        some { a with status := ApprovalStatus.expired }) ∧
    (∀ b ∈ (st.get_user_pending now u).1, ¬(b.expires_at < now)) ∧
    a ∉ (st.get_user_pending now u).1 := by
  refine ⟨fun sel => approve_of_expired now st a sel hfind hp he,
          fun reason => reject_of_expired now st a reason hfind hp he,
          fun b hb => (collect_pending_not_expired now (st.userIds u) st b hb).2,
          fun hmem => ?_⟩
  exact (collect_pending_not_expired now (st.userIds u) st a hmem).2 he

/-- Witness for C10 at the concrete store `c10_st` and operation time 9. -/
theorem c10_expired_approval_never_authorizes_witness :
    (c10_st.pending.find? (fun b => b.id == c10_a.id) = some c10_a ∧
     c10_a.status = ApprovalStatus.pending ∧ c10_a.expires_at < 9) ∧
    ((c10_st.approve 9 c10_a.id (some 0)).1 =
       some { c10_a with status := ApprovalStatus.expired } ∧
     (c10_st.reject 9 c10_a.id Option.none).1 =
       some { c10_a with status := ApprovalStatus.expired } ∧
     c10_a ∉ (c10_st.get_user_pending 9 3).1) :=
  ⟨⟨rfl, rfl, by decide⟩,
   ⟨((c10_expired_approval_never_authorizes 9 3 c10_st c10_a rfl rfl (by decide)).1
       (some 0)).1,
    ((c10_expired_approval_never_authorizes 9 3 c10_st c10_a rfl rfl (by decide)).2.1
       Option.none).1,
    (c10_expired_approval_never_authorizes 9 3 c10_st c10_a rfl rfl (by decide)).2.2.2⟩⟩

/-! ## C8 -/

/-- C8 counterexample: the claim states that any text other than "approve"
or a bare in-range integer "resolves nothing and returns a help message";
but the text "cancel" (neither "approve" nor an integer) RESOLVES the
user's most recent pending approval — to `rejected` — and returns
"Cancelled", not a help message. -/
theorem c8_cancel_resolves_counterexample :
    (c8_st.resolve_from_message 0 4 "cancel").1 =
      (some { c8_a with
              status := ApprovalStatus.rejected, rejection_reason := some "User cancelled",
              resolved_at := some 0 }, "Cancelled") := rfl

/-- C8 (amended): `resolveFromMessage` always targets the user's most
recently created pending approval (the last element of `getUserPending`).
On that item: an affirmative token ("approve"/"yes"/"ok"/"confirm"/"y"/
"proceed") resolves it approved with `selectedOption = none` even when
options exist; a negative token ("cancel"/"no"/"reject"/"n"/"stop"/
"abort") resolves it rejected; a bare integer k with 1 ≤ k ≤ number of
options (options present and nonempty) resolves it approved with
`selectedOption = k-1`; any other text resolves nothing and returns a
help message — a non-integer non-token, an integer without options, or an
out-of-range integer (the latter with an invalid-option message naming the
range). Requires the per-user id list to be duplicate-free, as the
source's dict keying guarantees. -/
theorem c8_amended_resolve_from_message (now u : Nat) (st st1 : ApprovalManager)
    (ps : List PendingApproval)
    (hU : (st.userIds u).Nodup)
    (hps : st.get_user_pending now u = (ps, st1))
    (hne : ps ≠ []) :
    (∀ msg : String, affirmative_tokens.contains (pyLower (pyStrip msg)) = true →
      (st.resolve_from_message now u msg).1 =
        (some { ps.getLast hne with
                status := ApprovalStatus.approved,
                selected_option := Option.none, resolved_at := some now }, "Approved")) ∧
    (∀ msg : String, negative_tokens.contains (pyLower (pyStrip msg)) = true →
      (st.resolve_from_message now u msg).1 =
        (some { ps.getLast hne with
                status := ApprovalStatus.rejected,
                rejection_reason := some "User cancelled", resolved_at := some now },
         "Cancelled")) ∧
    (∀ (msg : String) (opts : List OptItem) (k : Nat),
      (ps.getLast hne).options = some opts → opts ≠ [] →
      isDigitStr (pyLower (pyStrip msg)) = true → strToNat (pyLower (pyStrip msg)) = k →
      1 ≤ k → k ≤ opts.length →
      (st.resolve_from_message now u msg).1 =
        (some { ps.getLast hne with
                status := ApprovalStatus.approved,
                selected_option := some (k - 1), resolved_at := some now },
         "Selected option " ++ toString k)) ∧
    (∀ msg : String, isDigitStr (pyLower (pyStrip msg)) = false →
      affirmative_tokens.contains (pyLower (pyStrip msg)) = false →
      negative_tokens.contains (pyLower (pyStrip msg)) = false →
      (st.resolve_from_message now u msg).1 =
        (Option.none, "Reply \x27approve\x27 or \x27cancel\x27")) ∧
    (∀ msg : String, isDigitStr (pyLower (pyStrip msg)) = true →
      optionsTruthy (ps.getLast hne).options = false →
      (st.resolve_from_message now u msg).1 =
        (Option.none, "Reply \x27approve\x27 or \x27cancel\x27")) ∧
    (∀ (msg : String) (opts : List OptItem),
      (ps.getLast hne).options = some opts → opts ≠ [] →
      isDigitStr (pyLower (pyStrip msg)) = true →
      ¬(1 ≤ strToNat (pyLower (pyStrip msg)) ∧
        strToNat (pyLower (pyStrip msg)) ≤ opts.length) →
      (st.resolve_from_message now u msg).1 =
        (Option.none, "Invalid option. Please choose 1-" ++ toString opts.length)) := by
  have hps2 : ApprovalManager.collect_pending now (st.userIds u) st = (ps, st1) := hps
  have hc1 : (ApprovalManager.collect_pending now (st.userIds u) st).1 = ps :=
    congrArg Prod.fst hps2
  have hc2 : (ApprovalManager.collect_pending now (st.userIds u) st).2 = st1 :=
    congrArg Prod.snd hps2
  have hmem : ps.getLast hne ∈ (ApprovalManager.collect_pending now (st.userIds u) st).1 := by
    rw [hc1]
    exact List.getLast_mem hne
  have hfind : st1.pending.find? (fun x => x.id == (ps.getLast hne).id) =
      some (ps.getLast hne) := by
    rw [← hc2]
    exact collect_pending_find now (st.userIds u) st hU (ps.getLast hne) hmem
  obtain ⟨hstat, hnexp⟩ :=
    collect_pending_not_expired now (st.userIds u) st (ps.getLast hne) hmem
  have hisexp : (ps.getLast hne).is_expired now = false := by
    rw [PendingApproval.is_expired]
    simp [hnexp]
  refine ⟨?_, ?_, ?_, ?_, ?_, ?_⟩
  · intro msg haff
    simp only [ApprovalManager.resolve_from_message]
    rw [hps]
    dsimp only
    rw [dif_neg hne, if_pos haff,
        approve_of_pending now st1 (ps.getLast hne).id (ps.getLast hne) Option.none
          hfind hstat hisexp]
  · intro msg hneg
    simp only [ApprovalManager.resolve_from_message]
    rw [hps]
    dsimp only
    rw [dif_neg hne, if_neg (by rw [negative_not_affirmative _ hneg]; simp),
        if_pos hneg,
        reject_of_pending now st1 (ps.getLast hne).id (ps.getLast hne)
          (some "User cancelled") hfind hstat hisexp]
  · intro msg opts k hopts hone hdig hk h1 h2
    simp only [ApprovalManager.resolve_from_message]
    rw [hps]
    dsimp only
    have htruthy : optionsTruthy (ps.getLast hne).options = true := by
      rw [hopts]
      simp only [optionsTruthy]
      simpa using hone
    rw [dif_neg hne, if_neg (by rw [digit_not_affirmative _ hdig]; simp),
        if_neg (by rw [digit_not_negative _ hdig]; simp),
        if_pos (by rw [hdig, htruthy]; rfl),
        if_pos (by rw [hk]; exact ⟨h1, by rw [hopts]; simpa using h2⟩),
        approve_of_pending now st1 (ps.getLast hne).id (ps.getLast hne)
          (some (strToNat (pyLower (pyStrip msg)) - 1)) hfind hstat hisexp]
    rw [hk]
  · intro msg hdig haff hneg
    simp only [ApprovalManager.resolve_from_message]
    rw [hps]
    dsimp only
    rw [dif_neg hne, if_neg (by rw [haff]; simp), if_neg (by rw [hneg]; simp),
        if_neg (by rw [hdig]; simp)]
  · intro msg hdig htruthy
    simp only [ApprovalManager.resolve_from_message]
    rw [hps]
    dsimp only
    rw [dif_neg hne, if_neg (by rw [digit_not_affirmative _ hdig]; simp),
        if_neg (by rw [digit_not_negative _ hdig]; simp),
        if_neg (by rw [hdig, htruthy]; simp)]
  · intro msg opts hopts hone hdig hrange
    simp only [ApprovalManager.resolve_from_message]
    rw [hps]
    dsimp only
    have htruthy : optionsTruthy (ps.getLast hne).options = true := by
      rw [hopts]
      simp only [optionsTruthy]
      simpa using hone
    rw [dif_neg hne, if_neg (by rw [digit_not_affirmative _ hdig]; simp),
        if_neg (by rw [digit_not_negative _ hdig]; simp),
        if_pos (by rw [hdig, htruthy]; rfl),
        if_neg (by rw [hopts]; simpa using hrange)]
    rw [hopts]
    rfl

/-- Witness for C8 at the concrete store `c8_st` (one pending approval with
two options): "approve" approves with no selected option, "2" approves
with selected option 1, "cancel" rejects, "hello" resolves nothing. -/
theorem c8_amended_resolve_from_message_witness :
    ((c8_st.userIds 4).Nodup ∧
     c8_st.get_user_pending 0 4 = ([c8_a], c8_st) ∧
     ([c8_a] : List PendingApproval) ≠ []) ∧
    ((c8_st.resolve_from_message 0 4 "approve").1 =
       (some { c8_a with
               status := ApprovalStatus.approved, selected_option := Option.none,
               resolved_at := some 0 }, "Approved") ∧
     (c8_st.resolve_from_message 0 4 "2").1 =
       (some { c8_a with
               status := ApprovalStatus.approved, selected_option := some (2 - 1),
               resolved_at := some 0 }, "Selected option " ++ toString 2) ∧
     (c8_st.resolve_from_message 0 4 "hello").1 =
       (Option.none, "Reply \x27approve\x27 or \x27cancel\x27")) :=
  ⟨⟨by decide, rfl, by decide⟩,
   ⟨(c8_amended_resolve_from_message 0 4 c8_st c8_st [c8_a] (by decide) rfl
       (by decide)).1 "approve" (by decide),
    (c8_amended_resolve_from_message 0 4 c8_st c8_st [c8_a] (by decide) rfl
       (by decide)).2.2.1 "2" [{ label := "option A" }, { label := "option B" }] 2
       rfl (by decide) (by decide) (by decide) (by decide) (by decide),
    (c8_amended_resolve_from_message 0 4 c8_st c8_st [c8_a] (by decide) rfl
       (by decide)).2.2.2.1 "hello" (by decide) (by decide) (by decide)⟩⟩

/-! ## C9 -/

theorem run_turn_succ (o : LlmOracle) (n : Nat) (node : Node) (st : GState) :
    run_turn o (n + 1) node st =
      (match next_node node (step_node o node st) with
       | Option.none => ([node], step_node o node st)
       | some n2 =>
         (node :: (run_turn o n n2 (step_node o node st)).1,
          (run_turn o n n2 (step_node o node st)).2)) := rfl

/-- C9: with a `PendingApproval` outstanding (`approval_status = "pending"`)
and an inbound message whose canonical form is a negative token, a turn of
the graph — for EVERY language-model/tool oracle — visits exactly
`parse_intent → respond → check_proactive`, bypassing classification: the
approval is resolved rejected, the final response is the fixed cancellation
text, and the capability-invocation counter is unchanged (no capability is
invoked during the turn). -/
theorem c9_cancel_short_circuits_turn (o : LlmOracle) (fuel : Nat) (st : GState)
    (m : String)
    (hf : 3 ≤ fuel) (hmsg : st.message = some m)
    (hpend : st.approval_status = "pending")
    (hneg : negative_tokens.contains (pyStrip (pyLower m)) = true) :
    (run_turn o fuel Node.parse_intent st).1 =
      [Node.parse_intent, Node.respond, Node.check_proactive] ∧
    (run_turn o fuel Node.parse_intent st).2.approval_status = "rejected" ∧
    (run_turn o fuel Node.parse_intent st).2.final_response =
      some "Understood, I\x27ve cancelled that action." ∧
    (run_turn o fuel Node.parse_intent st).2.invocations = st.invocations := by
  obtain ⟨k, hk⟩ : ∃ k, fuel = k + 3 := ⟨fuel - 3, by omega⟩
  subst hk
  have haff := negative_not_affirmative _ hneg
  have hpi : parse_intent_node o st =
      { st with
        approval_status := "rejected", approval_response := some "rejected",
        next_action := "respond",
        final_response := some "Understood, I\x27ve cancelled that action.",
        should_respond := true } := by
    unfold parse_intent_node
    rw [hmsg]
    dsimp only
    rw [if_neg (fun h => Bool.noConfusion (haff.symm.trans h.2)), if_pos ⟨hpend, hneg⟩]
  have hrun : run_turn o (k + 3) Node.parse_intent st =
      ([Node.parse_intent, Node.respond, Node.check_proactive],
       check_proactive_node o (respond_node o (parse_intent_node o st))) := by
    rw [show k + 3 = (k + 2) + 1 from rfl, run_turn_succ]
    dsimp only [step_node]
    rw [show next_node Node.parse_intent (parse_intent_node o st) = some Node.respond from
      by rw [hpi]; rfl]
    dsimp only
    rw [show k + 2 = (k + 1) + 1 from rfl, run_turn_succ]
    dsimp only [step_node]
    rw [show next_node Node.respond (respond_node o (parse_intent_node o st)) =
      some Node.check_proactive from rfl]
    dsimp only
    rw [run_turn_succ]
    dsimp only [step_node]
    rw [show next_node Node.check_proactive
      (check_proactive_node o (respond_node o (parse_intent_node o st))) = Option.none from
      rfl]
  rw [hrun, hpi]
  exact ⟨rfl, rfl, rfl, rfl⟩

/-- Witness for C9 at the concrete oracle `c9_oracle`, fuel 3 and the state
carrying "cancel" with an outstanding approval. -/
theorem c9_cancel_short_circuits_turn_witness :
    (3 ≤ 3 ∧ c9_state.message = some "cancel" ∧
     c9_state.approval_status = "pending" ∧
     negative_tokens.contains (pyStrip (pyLower "cancel")) = true) ∧
    ((run_turn c9_oracle 3 Node.parse_intent c9_state).1 =
       [Node.parse_intent, Node.respond, Node.check_proactive] ∧
     (run_turn c9_oracle 3 Node.parse_intent c9_state).2.approval_status = "rejected" ∧
     (run_turn c9_oracle 3 Node.parse_intent c9_state).2.final_response =
       some "Understood, I\x27ve cancelled that action." ∧
     (run_turn c9_oracle 3 Node.parse_intent c9_state).2.invocations =
       c9_state.invocations) :=
  ⟨⟨by decide, rfl, rfl, by decide⟩,
   c9_cancel_short_circuits_turn c9_oracle 3 c9_state "cancel" (by decide) rfl rfl
     (by decide)⟩

end Franklin


